import Mathlib

/-!
Verification development for the syntactic analyzer in
`src/analyzer/syntax.rs` (the parser of language L).

The Rust source is shallowly embedded: the parser state (`Syntax` struct)
becomes an explicit state record, `Result<_, SyntaxError>` becomes an
outcome type that also records Rust panics (`panic!`, failed `assert!`,
out-of-range `Vec` indexing) and fuel exhaustion, and the append-only
`self.errors` diagnostic vector (which no parsing decision ever reads)
is modelled as an output stream accumulated by the monad.

Data types declared in `common.rs` / `lexer.rs` (not part of the sources,
only used by them) are modelled from the spec where noted.
-/

set_option maxHeartbeats 4000000

namespace NLS

/-- Token kinds of the lexer. Modelled from the spec and from every
`TokenType::...` occurrence in `syntax.rs` (the declaring `lexer.rs` is not
among the sources). `Type_` stands for the source's `Type` kind, which is a
reserved word in Lean. -/
inductive TokenType where
  | Plus | Minus | Star | Slash | Percent
  | EqualEqual | NotEqual | GreaterEqual | RightAngle | LessEqual | LessThan
  | AndAnd | OrOr
  | Tilde | And | Or | Xor | LeftShift | RightShift
  | PercentEqual | MinusEqual | PlusEqual | SlashEqual | StarEqual
  | OrEqual | AndEqual | XorEqual | LeftShiftEqual | RightShiftEqual
  | True | False | Null | Void
  | FloatLiteral | IntLiteral | StringLiteral
  | Bool | Float | F32 | F64 | Int | I8 | I16 | I32 | I64
  | Uint | U8 | U16 | U32 | U64 | String | Var
  | LeftParen | RightParen | LeftSquare | RightSquare | LeftCurly | RightCurly
  | LeftAngle
  | MacroIdent | Dot | Not | Ident
  | As | Is | Catch | Try
  | Any | Ptr | Vec | Map | Set | Tup | Chan | Arr | Struct | Fn
  | Question | Colon | Comma | Equal | Ellipsis
  | Else | If | For | Return | Break | Continue | Import | Type_
  | Throw | Let | Go | Match | New | In
  | FnLabel | RightArrow | ImportStar
  | StmtEof | Eof
  | Unknown
  deriving DecidableEq, Repr

/-- Modelled from the spec: display string of a token kind, used by the
`Display` impl of `TokenType` in the missing `lexer.rs`.  The spec only
fixes the format of the messages built from it (for example
`expected '<kind>'`), not the individual strings, so representative
strings are chosen. -/
def tokenTypeStr : TokenType → String
  | .Plus => "+" | .Minus => "-" | .Star => "*" | .Slash => "/" | .Percent => "%"
  | .EqualEqual => "==" | .NotEqual => "!=" | .GreaterEqual => ">="
  | .RightAngle => ">" | .LessEqual => "<=" | .LessThan => "<"
  | .AndAnd => "&&" | .OrOr => "||"
  | .Tilde => "~" | .And => "&" | .Or => "|" | .Xor => "^"
  | .LeftShift => "<<" | .RightShift => ">>"
  | .PercentEqual => "%=" | .MinusEqual => "-=" | .PlusEqual => "+="
  | .SlashEqual => "/=" | .StarEqual => "*=" | .OrEqual => "|="
  | .AndEqual => "&=" | .XorEqual => "^=" | .LeftShiftEqual => "<<="
  | .RightShiftEqual => ">>="
  | .True => "true" | .False => "false" | .Null => "null" | .Void => "void"
  | .FloatLiteral => "float literal" | .IntLiteral => "int literal"
  | .StringLiteral => "string literal"
  | .Bool => "bool" | .Float => "float" | .F32 => "f32" | .F64 => "f64"
  | .Int => "int" | .I8 => "i8" | .I16 => "i16" | .I32 => "i32" | .I64 => "i64"
  | .Uint => "uint" | .U8 => "u8" | .U16 => "u16" | .U32 => "u32" | .U64 => "u64"
  | .String => "string" | .Var => "var"
  | .LeftParen => "(" | .RightParen => ")" | .LeftSquare => "["
  | .RightSquare => "]" | .LeftCurly => "\x7b" | .RightCurly => "\x7d"
  | .LeftAngle => "<"
  | .MacroIdent => "macro ident" | .Dot => "." | .Not => "!" | .Ident => "ident"
  | .As => "as" | .Is => "is" | .Catch => "catch" | .Try => "try"
  | .Any => "any" | .Ptr => "ptr" | .Vec => "vec" | .Map => "map" | .Set => "set"
  | .Tup => "tup" | .Chan => "chan" | .Arr => "arr" | .Struct => "struct"
  | .Fn => "fn"
  | .Question => "?" | .Colon => ":" | .Comma => "," | .Equal => "="
  | .Ellipsis => "..."
  | .Else => "else" | .If => "if" | .For => "for" | .Return => "return"
  | .Break => "break" | .Continue => "continue" | .Import => "import"
  | .Type_ => "type"
  | .Throw => "throw" | .Let => "let" | .Go => "go" | .Match => "match"
  | .New => "new" | .In => "in"
  | .FnLabel => "fn label" | .RightArrow => "=>" | .ImportStar => "*"
  | .StmtEof => ";" | .Eof => "eof"
  | .Unknown => "unknown"

/-- Lexical token. Modelled from the spec (`{kind, literal, start, end, line}`;
the declaring `lexer.rs` is not among the sources). The `end` field is named
`end_` because `end` is reserved in Lean. -/
structure Token where
  token_type : TokenType
  literal : String
  start : Nat
  end_ : Nat
  line : Nat
  deriving DecidableEq, Repr

/-- Modelled from the spec: `Token::is_complex_assign` (declared in the
missing `lexer.rs`) recognises the compound-assign operators
`+= -= *= /= %= &= |= ^= <<= >>=`. -/
def Token.is_complex_assign (t : Token) : Bool :=
  match t.token_type with
  | .PercentEqual | .MinusEqual | .PlusEqual | .SlashEqual | .StarEqual
  | .OrEqual | .AndEqual | .XorEqual | .LeftShiftEqual | .RightShiftEqual => true
  | _ => false

/-- Expression operators, from `ExprOp` usage in `syntax.rs`. -/
inductive ExprOp where
  | Add | Sub | Mul | Div | Rem
  | Ee | Ne | Ge | Gt | Le | Lt
  | AndAnd | OrOr
  | Bnot | And | Or | Xor | Lshift | Rshift
  | Not | Neg | La | Ia
  | None
  deriving DecidableEq, Repr

/-- Translation of `token_to_expr_op`. -/
def token_to_expr_op (token : TokenType) : ExprOp :=
  match token with
  | .Plus => .Add
  | .Minus => .Sub
  | .Star => .Mul
  | .Slash => .Div
  | .Percent => .Rem
  | .EqualEqual => .Ee
  | .NotEqual => .Ne
  | .GreaterEqual => .Ge
  | .RightAngle => .Gt
  | .LessEqual => .Le
  | .LessThan => .Lt
  | .AndAnd => .AndAnd
  | .OrOr => .OrOr
  | .Tilde => .Bnot
  | .And => .And
  | .Or => .Or
  | .Xor => .Xor
  | .LeftShift => .Lshift
  | .RightShift => .Rshift
  | .PercentEqual => .Rem
  | .MinusEqual => .Sub
  | .PlusEqual => .Add
  | .SlashEqual => .Div
  | .StarEqual => .Mul
  | .OrEqual => .Or
  | .AndEqual => .And
  | .XorEqual => .Xor
  | .LeftShiftEqual => .Lshift
  | .RightShiftEqual => .Rshift
  | _ => .None

/-- Reduction status of a type descriptor (from the spec; declared in the
missing `common.rs`). -/
inductive ReductionStatus where
  | Undo | Done
  deriving DecidableEq, Repr

/-- Operator precedence levels (`SyntaxPrecedence`), lowest to highest. -/
inductive SyntaxPrecedence where
  | Null
  | Assign
  | Catch
  | OrOr
  | AndAnd
  | Or
  | Xor
  | And
  | CmpEqual
  | Compare
  | Shift
  | Term
  | Factor
  | TypeCast
  | Unary
  | Call
  | Primary
  deriving DecidableEq, Repr

/-- Numeric value of a precedence level (the `repr(u8)` discriminant used
by the derived `PartialOrd`). -/
def SyntaxPrecedence.val : SyntaxPrecedence → Nat
  | .Null => 0 | .Assign => 1 | .Catch => 2 | .OrOr => 3 | .AndAnd => 4
  | .Or => 5 | .Xor => 6 | .And => 7 | .CmpEqual => 8 | .Compare => 9
  | .Shift => 10 | .Term => 11 | .Factor => 12 | .TypeCast => 13
  | .Unary => 14 | .Call => 15 | .Primary => 16

/-- Translation of `SyntaxPrecedence::next`: the next-higher level, `none`
past `Primary`. -/
def SyntaxPrecedence.next : SyntaxPrecedence → Option SyntaxPrecedence
  | .Null => some .Assign
  | .Assign => some .Catch
  | .Catch => some .OrOr
  | .OrOr => some .AndAnd
  | .AndAnd => some .Or
  | .Or => some .Xor
  | .Xor => some .And
  | .And => some .CmpEqual
  | .CmpEqual => some .Compare
  | .Compare => some .Shift
  | .Shift => some .Term
  | .Term => some .Factor
  | .Factor => some .TypeCast
  | .TypeCast => some .Unary
  | .Unary => some .Call
  | .Call => some .Primary
  | .Primary => none

/-- Import statement payload (`ImportStmt` in the missing `common.rs`,
fields from the spec and from `parser_import_stmt`). -/
structure ImportStmt where
  file : Option String
  ast_package : Option (List String)
  as_name : Option String
  module_type : Nat
  full_path : String
  package_conf : Option Unit
  package_dir : String
  use_links : Bool
  module_ident : String
  deriving DecidableEq, Repr

mutual

/-- Semantic type descriptor (`Type` in the source; `Ty` here because `Type`
is reserved in Lean). Field `end` is named `end_`. -/
inductive Ty where
  | mk (kind : TypeKind) (start : Nat) (end_ : Nat) (status : ReductionStatus)
       (impl_ident : Option String) (origin_ident : Option String)
       (origin_type_kind : TypeKind)

/-- Tagged type variants (`TypeKind`). -/
inductive TypeKind where
  | Void | Null | Bool
  | Int | Int8 | Int16 | Int32 | Int64
  | Uint | Uint8 | Uint16 | Uint32 | Uint64
  | Float | Float32 | Float64
  | String
  | Ptr (t : Ty)
  | Vec (t : Ty)
  | Arr (len : Nat) (t : Ty)
  | Map (k : Ty) (v : Ty)
  | Set (t : Ty)
  | Tuple (ts : List Ty) (align : Nat)
  | Chan (t : Ty)
  | Struct (name : String) (align : Nat) (props : List TypeStructProperty)
  | Fn (f : TypeFn)
  | Union (any : Bool) (ts : List Ty)
  | Alias (a : TypeAlias)
  | Param (name : String)
  | Unknown

/-- Struct-type property (`TypeStructProperty`). -/
inductive TypeStructProperty where
  | mk (type_ : Ty) (key : String) (value : Option Expr)

/-- Type alias reference (`TypeAlias`). -/
inductive TypeAlias where
  | mk (ident : String) (import_as : Option String) (args : Option (List Ty))

/-- Function type (`TypeFn`). -/
inductive TypeFn where
  | mk (name : Option String) (param_types : List Ty) (return_type : Ty)
       (rest : Bool) (tpl : Bool)

/-- Generic parameter with constraints (`GenericsParam`; the `constraints`
pair `(bool, Vec<Type>)` is split into two fields). -/
inductive GenericsParam where
  | mk (name : String) (constraints_any : Bool) (constraints_list : List Ty)

/-- Variable declaration payload (`VarDeclExpr`). -/
inductive VarDeclExpr where
  | mk (type_ : Ty) (ident : String) (symbol_start : Nat) (symbol_end : Nat)
       (be_capture : Bool) (heap_ident : Option String)

/-- Expression node (`Expr`): span, two type slots and the payload. -/
inductive Expr where
  | mk (start : Nat) (end_ : Nat) (type_ : Ty) (target_type : Ty) (node : AstNode)

/-- Statement node (`Stmt`). -/
inductive Stmt where
  | mk (start : Nat) (end_ : Nat) (node : AstNode)

/-- Call payload (`AstCall`). -/
inductive AstCall where
  | mk (return_type : Ty) (left : Expr) (generics_args : List Ty)
       (args : List Expr) (spread : Bool)

/-- Function definition payload (`AstFnDef`; fields from the spec and from
every use in `syntax.rs`, the declaring `common.rs` being missing). -/
inductive AstFnDef where
  | mk (symbol_name : String) (fn_name : Option String)
       (params : List VarDeclExpr) (rest_param : Bool)
       (generics_params : Option (List GenericsParam))
       (return_type : Ty) (body : List Stmt) (impl_type : Ty)
       (is_tpl : Bool) (is_co_async : Bool) (is_private : Bool)
       (linkid : Option String) (start : Nat) (end_ : Nat)

/-- One arm of a match expression (`MatchCase`). -/
inductive MatchCase where
  | mk (cond_list : List Expr) (handle_body : Option (List Stmt))
       (handle_expr : Option Expr) (is_default : Bool)

/-- Map-literal element (`MapElement`). -/
inductive MapElement where
  | mk (key : Expr) (value : Expr)

/-- Tuple destructuring pattern (`TupleDestrExpr`). -/
inductive TupleDestrExpr where
  | mk (elements : List Expr)

/-- Coroutine macro payload (`MacroCoAsyncExpr`). -/
inductive MacroCoAsyncExpr where
  | mk (origin_call : AstCall) (closure_fn : AstFnDef)
       (closure_fn_void : AstFnDef) (flag_expr : Option Expr)
       (return_type : Ty)

/-- Type-alias statement payload (`TypeAliasStmt`). -/
inductive TypeAliasStmt where
  | mk (ident : String) (symbol_start : Nat) (symbol_end : Nat)
       (params : Option (List GenericsParam)) (type_ : Ty)

/-- Tagged AST payload (`AstNode`), with a variant for every construction
site in `syntax.rs`. -/
inductive AstNode where
  | None
  | Fake (e : Expr)
  | Literal (kind : TypeKind) (literal : String)
  | Ident (name : String)
  | Binary (op : ExprOp) (left : Expr) (right : Expr)
  | Unary (op : ExprOp) (operand : Expr)
  | Call (call : AstCall)
  | Select (left : Expr) (key : String)
  | Access (left : Expr) (key : Expr)
  | VecNew (elements : List Expr) (len : Option Expr) (cap : Option Expr)
  | MapNew (elements : List MapElement)
  | SetNew (elements : List Expr)
  | TupleNew (elements : List Expr)
  | EmptyCurlyNew
  | StructNew (name : String) (type_ : Ty) (props : List StructNewProperty)
  | As (target : Ty) (src : Expr)
  | Is (target : Ty) (src : Expr)
  | MatchIs (target : Ty)
  | Match (subject : Option Expr) (cases : List MatchCase)
  | Catch (try_expr : Expr) (catch_err : VarDeclExpr) (catch_body : List Stmt)
  | FnDef (fndef : AstFnDef)
  | VarDecl (ident : String) (type_ : Ty) (be_capture : Bool)
            (heap_ident : Option String)
  | VarDef (var_decl : VarDeclExpr) (right : Expr)
  | Assign (left : Expr) (right : Expr)
  | VarTupleDestr (tuple_destr : TupleDestrExpr) (right : Expr)
  | TupleDestr (elements : List Expr)
  | If (condition : Expr) (consequent : List Stmt) (alternate : Option (List Stmt))
  | ForCond (condition : Expr) (body : List Stmt)
  | ForIterator (iterate : Expr) (first : VarDeclExpr)
                (second : Option VarDeclExpr) (body : List Stmt)
  | ForTradition (init : Stmt) (cond : Expr) (update : Stmt) (body : List Stmt)
  | Return (e : Option Expr)
  | Break (e : Option Expr)
  | Continue
  | Import (i : ImportStmt)
  | TypeAlias (t : TypeAliasStmt)
  | Throw (e : Expr)
  | Let (e : Expr)
  | MacroCoAsync (m : MacroCoAsyncExpr)
  | MacroDefault
  | MacroSizeof (target : Ty)
  | MacroReflectHash (target : Ty)
  | MacroUla (src : Expr)
  | New (t : Ty) (props : List Expr)

/-- Struct-literal property (`StructNewProperty`). -/
inductive StructNewProperty where
  | mk (type_ : Ty) (key : String) (value : Expr)

end

def Ty.kind : Ty → TypeKind
  | .mk k _ _ _ _ _ _ => k

def Ty.start : Ty → Nat
  | .mk _ s _ _ _ _ _ => s

def Ty.end_ : Ty → Nat
  | .mk _ _ e _ _ _ _ => e

def Ty.status : Ty → ReductionStatus
  | .mk _ _ _ st _ _ _ => st

def Ty.impl_ident : Ty → Option String
  | .mk _ _ _ _ i _ _ => i

def Ty.origin_ident : Ty → Option String
  | .mk _ _ _ _ _ o _ => o

def Ty.origin_type_kind : Ty → TypeKind
  | .mk _ _ _ _ _ _ o => o

def Ty.setKind : Ty → TypeKind → Ty
  | .mk _ s e st i o ot, k => .mk k s e st i o ot

def Ty.setStart : Ty → Nat → Ty
  | .mk k _ e st i o ot, s => .mk k s e st i o ot

def Ty.setEnd : Ty → Nat → Ty
  | .mk k s _ st i o ot, e => .mk k s e st i o ot

def Ty.setStatus : Ty → ReductionStatus → Ty
  | .mk k s e _ i o ot, st => .mk k s e st i o ot

def Ty.setImplIdent : Ty → Option String → Ty
  | .mk k s e st _ o ot, i => .mk k s e st i o ot

def Ty.setOriginIdent : Ty → Option String → Ty
  | .mk k s e st i _ ot, o => .mk k s e st i o ot

def Ty.setOriginTypeKind : Ty → TypeKind → Ty
  | .mk k s e st i o _, ot => .mk k s e st i o ot

/-- Translation of `Type::default()` (derived `Default` in the missing
`common.rs`; the spec fixes `kind` to `Unknown` and `status` to undone). -/
def Ty.default : Ty := .mk .Unknown 0 0 .Undo none none .Unknown

/-- Translation of `Type::new(kind)` (missing `common.rs`): a default
descriptor with the given kind. -/
def Ty.new (kind : TypeKind) : Ty := .mk kind 0 0 .Undo none none .Unknown

def Expr.start : Expr → Nat
  | .mk s _ _ _ _ => s

def Expr.end_ : Expr → Nat
  | .mk _ e _ _ _ => e

def Expr.type_ : Expr → Ty
  | .mk _ _ t _ _ => t

def Expr.target_type : Expr → Ty
  | .mk _ _ _ t _ => t

def Expr.node : Expr → AstNode
  | .mk _ _ _ _ n => n

def Expr.setNode : Expr → AstNode → Expr
  | .mk s e t tt _, n => .mk s e t tt n

/-- Translation of `Expr::default()`. -/
def Expr.default : Expr := .mk 0 0 Ty.default Ty.default .None

/-- Translation of `Expr::ident(start, end, literal)` (missing `common.rs`):
an identifier expression with the given span. -/
def Expr.identExpr (start : Nat) (end_ : Nat) (name : String) : Expr :=
  .mk start end_ Ty.default Ty.default (.Ident name)

def Stmt.start : Stmt → Nat
  | .mk s _ _ => s

def Stmt.end_ : Stmt → Nat
  | .mk _ e _ => e

def Stmt.node : Stmt → AstNode
  | .mk _ _ n => n

def Stmt.setNode : Stmt → AstNode → Stmt
  | .mk s e _, n => .mk s e n

def AstCall.return_type : AstCall → Ty
  | .mk r _ _ _ _ => r

def AstCall.left : AstCall → Expr
  | .mk _ l _ _ _ => l

def AstCall.generics_args : AstCall → List Ty
  | .mk _ _ g _ _ => g

def AstCall.args : AstCall → List Expr
  | .mk _ _ _ a _ => a

def AstCall.spread : AstCall → Bool
  | .mk _ _ _ _ s => s

def AstFnDef.symbol_name : AstFnDef → String
  | .mk sn _ _ _ _ _ _ _ _ _ _ _ _ _ => sn

def AstFnDef.fn_name : AstFnDef → Option String
  | .mk _ fn _ _ _ _ _ _ _ _ _ _ _ _ => fn

def AstFnDef.params : AstFnDef → List VarDeclExpr
  | .mk _ _ p _ _ _ _ _ _ _ _ _ _ _ => p

def AstFnDef.rest_param : AstFnDef → Bool
  | .mk _ _ _ r _ _ _ _ _ _ _ _ _ _ => r

def AstFnDef.generics_params : AstFnDef → Option (List GenericsParam)
  | .mk _ _ _ _ g _ _ _ _ _ _ _ _ _ => g

def AstFnDef.return_type : AstFnDef → Ty
  | .mk _ _ _ _ _ rt _ _ _ _ _ _ _ _ => rt

def AstFnDef.body : AstFnDef → List Stmt
  | .mk _ _ _ _ _ _ b _ _ _ _ _ _ _ => b

def AstFnDef.impl_type : AstFnDef → Ty
  | .mk _ _ _ _ _ _ _ it _ _ _ _ _ _ => it

def AstFnDef.is_tpl : AstFnDef → Bool
  | .mk _ _ _ _ _ _ _ _ t _ _ _ _ _ => t

def AstFnDef.is_co_async : AstFnDef → Bool
  | .mk _ _ _ _ _ _ _ _ _ c _ _ _ _ => c

def AstFnDef.is_private : AstFnDef → Bool
  | .mk _ _ _ _ _ _ _ _ _ _ p _ _ _ => p

def AstFnDef.linkid : AstFnDef → Option String
  | .mk _ _ _ _ _ _ _ _ _ _ _ l _ _ => l

def AstFnDef.start : AstFnDef → Nat
  | .mk _ _ _ _ _ _ _ _ _ _ _ _ s _ => s

def AstFnDef.end_ : AstFnDef → Nat
  | .mk _ _ _ _ _ _ _ _ _ _ _ _ _ e => e

def AstFnDef.setSymbolName : AstFnDef → String → AstFnDef
  | .mk _ fn p r g rt b it t c pr l s e, sn => .mk sn fn p r g rt b it t c pr l s e

def AstFnDef.setFnName : AstFnDef → Option String → AstFnDef
  | .mk sn _ p r g rt b it t c pr l s e, fn => .mk sn fn p r g rt b it t c pr l s e

def AstFnDef.setParams : AstFnDef → List VarDeclExpr → AstFnDef
  | .mk sn fn _ r g rt b it t c pr l s e, p => .mk sn fn p r g rt b it t c pr l s e

def AstFnDef.setRestParam : AstFnDef → Bool → AstFnDef
  | .mk sn fn p _ g rt b it t c pr l s e, r => .mk sn fn p r g rt b it t c pr l s e

def AstFnDef.setGenericsParams : AstFnDef → Option (List GenericsParam) → AstFnDef
  | .mk sn fn p r _ rt b it t c pr l s e, g => .mk sn fn p r g rt b it t c pr l s e

def AstFnDef.setReturnType : AstFnDef → Ty → AstFnDef
  | .mk sn fn p r g _ b it t c pr l s e, rt => .mk sn fn p r g rt b it t c pr l s e

def AstFnDef.setBody : AstFnDef → List Stmt → AstFnDef
  | .mk sn fn p r g rt _ it t c pr l s e, b => .mk sn fn p r g rt b it t c pr l s e

def AstFnDef.setImplType : AstFnDef → Ty → AstFnDef
  | .mk sn fn p r g rt b _ t c pr l s e, it => .mk sn fn p r g rt b it t c pr l s e

def AstFnDef.setIsTpl : AstFnDef → Bool → AstFnDef
  | .mk sn fn p r g rt b it _ c pr l s e, t => .mk sn fn p r g rt b it t c pr l s e

def AstFnDef.setIsCoAsync : AstFnDef → Bool → AstFnDef
  | .mk sn fn p r g rt b it t _ pr l s e, c => .mk sn fn p r g rt b it t c pr l s e

def AstFnDef.setIsPrivate : AstFnDef → Bool → AstFnDef
  | .mk sn fn p r g rt b it t c _ l s e, pr => .mk sn fn p r g rt b it t c pr l s e

def AstFnDef.setLinkid : AstFnDef → Option String → AstFnDef
  | .mk sn fn p r g rt b it t c pr _ s e, l => .mk sn fn p r g rt b it t c pr l s e

def AstFnDef.setStart : AstFnDef → Nat → AstFnDef
  | .mk sn fn p r g rt b it t c pr l _ e, s => .mk sn fn p r g rt b it t c pr l s e

def AstFnDef.setEnd : AstFnDef → Nat → AstFnDef
  | .mk sn fn p r g rt b it t c pr l s _, e => .mk sn fn p r g rt b it t c pr l s e

/-- Translation of `AstFnDef::default()` (derived `Default` in the missing
`common.rs`). -/
def AstFnDef.default : AstFnDef :=
  .mk "" none [] false none Ty.default [] Ty.default false false false none 0 0

def VarDeclExpr.type_ : VarDeclExpr → Ty
  | .mk t _ _ _ _ _ => t

def VarDeclExpr.ident : VarDeclExpr → String
  | .mk _ i _ _ _ _ => i

def VarDeclExpr.symbol_start : VarDeclExpr → Nat
  | .mk _ _ s _ _ _ => s

def VarDeclExpr.symbol_end : VarDeclExpr → Nat
  | .mk _ _ _ e _ _ => e

def MatchCase.cond_list : MatchCase → List Expr
  | .mk c _ _ _ => c

def MatchCase.handle_body : MatchCase → Option (List Stmt)
  | .mk _ b _ _ => b

def MatchCase.handle_expr : MatchCase → Option Expr
  | .mk _ _ e _ => e

def MatchCase.is_default : MatchCase → Bool
  | .mk _ _ _ d => d

def MacroCoAsyncExpr.origin_call : MacroCoAsyncExpr → AstCall
  | .mk o _ _ _ _ => o

def MacroCoAsyncExpr.closure_fn : MacroCoAsyncExpr → AstFnDef
  | .mk _ c _ _ _ => c

def MacroCoAsyncExpr.closure_fn_void : MacroCoAsyncExpr → AstFnDef
  | .mk _ _ c _ _ => c

def MacroCoAsyncExpr.flag_expr : MacroCoAsyncExpr → Option Expr
  | .mk _ _ _ f _ => f

def MacroCoAsyncExpr.return_type : MacroCoAsyncExpr → Ty
  | .mk _ _ _ _ r => r

def TypeAlias.ident : TypeAlias → String
  | .mk i _ _ => i

def TypeAlias.import_as : TypeAlias → Option String
  | .mk _ i _ => i

def TypeAlias.args : TypeAlias → Option (List Ty)
  | .mk _ _ a => a

def TypeAlias.setArgs : TypeAlias → Option (List Ty) → TypeAlias
  | .mk i ia _, a => .mk i ia a

/-- Translation of `TypeAlias::default()`. -/
def TypeAlias.default : TypeAlias := .mk "" none none

def TupleDestrExpr.elements : TupleDestrExpr → List Expr
  | .mk e => e

def GenericsParam.name : GenericsParam → String
  | .mk n _ _ => n

def GenericsParam.constraints_any : GenericsParam → Bool
  | .mk _ a _ => a

def GenericsParam.constraints_list : GenericsParam → List Ty
  | .mk _ _ l => l

/-- Translation of `GenericsParam::new(ident)`: constraints default to the
"any" flag with an empty list. -/
def GenericsParam.new (name : String) : GenericsParam := .mk name true []

def GenericsParam.setConstraints : GenericsParam → Bool → List Ty → GenericsParam
  | .mk n _ _, a, l => .mk n a l

/-- Translation of `token_to_type_kind`. -/
def token_to_type_kind (token : TokenType) : TypeKind :=
  match token with
  | .True | .False => .Bool
  | .Null => .Null
  | .Void => .Void
  | .FloatLiteral => .Float
  | .IntLiteral => .Int
  | .StringLiteral => .String
  | .Bool => .Bool
  | .Float => .Float
  | .F32 => .Float32
  | .F64 => .Float64
  | .Int => .Int
  | .I8 => .Int8
  | .I16 => .Int16
  | .I32 => .Int32
  | .I64 => .Int64
  | .Uint => .Uint
  | .U8 => .Uint8
  | .U16 => .Uint16
  | .U32 => .Uint32
  | .U64 => .Uint64
  | .String => .String
  | .Var => .Unknown
  | _ => .Unknown

/-- Modelled from the spec: display string of a `TypeKind` (the `Display`
impl lives in the missing `common.rs`).  It is used for `impl_ident` of
basic types and inside the message `type '<kind>' cannot impl fn`. -/
def typeKindStr : TypeKind → String
  | .Void => "void" | .Null => "null" | .Bool => "bool"
  | .Int => "int" | .Int8 => "i8" | .Int16 => "i16" | .Int32 => "i32"
  | .Int64 => "i64"
  | .Uint => "uint" | .Uint8 => "u8" | .Uint16 => "u16" | .Uint32 => "u32"
  | .Uint64 => "u64"
  | .Float => "float" | .Float32 => "f32" | .Float64 => "f64"
  | .String => "string"
  | .Ptr _ => "ptr" | .Vec _ => "vec" | .Arr _ _ => "arr" | .Map _ _ => "map"
  | .Set _ => "set" | .Tuple _ _ => "tup" | .Chan _ => "chan"
  | .Struct _ _ _ => "struct" | .Fn _ => "fn" | .Union _ _ => "union"
  | .Alias _ => "alias" | .Param _ => "param" | .Unknown => "unknown"

/-- Syntax error record (`SyntaxError(usize, usize, String)`); the second
position is named `end_`. -/
structure SyntaxError where
  start : Nat
  end_ : Nat
  message : String
  deriving DecidableEq, Repr

/-- Diagnostic record (`AnalyzerError` in the missing `common.rs`; the spec
gives `Diagnostic = {start, end, message}`). -/
structure AnalyzerError where
  start : Nat
  end_ : Nat
  message : String
  deriving DecidableEq, Repr

/-- Mutable parser state: the fields of the `Syntax` struct that parsing
decisions read and write.  `type_params_table` is a `HashMap<String,String>`
in the source, used only through `insert(k, k)` / `contains_key` /
`is_empty`, so it is modelled as the list of inserted keys. -/
structure PSt where
  tokens : List Token
  current : Nat
  type_params_table : List String
  match_cond : Bool
  match_subject : Bool
  deriving DecidableEq, Repr

/-- Outcome of running a parser routine: normal return, a propagating
`SyntaxError` (carrying the state as the Rust `&mut self` does), a Rust
panic (`panic!`, failed `assert!`, out-of-range indexing or `unwrap`), or
fuel exhaustion of the shallow embedding.  `errs` is the stream of
diagnostics pushed to the append-only `self.errors` vector, which no
parsing decision ever reads. -/
inductive Res (α : Type) where
  | ok (val : α) (st : PSt) (errs : List AnalyzerError)
  | fail (e : SyntaxError) (st : PSt) (errs : List AnalyzerError)
  | panicked (msg : String)
  | oof

/-- The parser monad: a state transformer over `PSt` with `SyntaxError`
exceptions, a diagnostic output stream and explicit divergence. -/
def PM (α : Type) : Type := PSt → Res α

def PM.pure (a : α) : PM α := fun s => .ok a s []

def PM.bind (m : PM α) (f : α → PM β) : PM β := fun s =>
  match m s with
  | .ok a s' es =>
    match f a s' with
    | .ok b s'' es' => .ok b s'' (es ++ es')
    | .fail e s'' es' => .fail e s'' (es ++ es')
    | .panicked msg => .panicked msg
    | .oof => .oof
  | .fail e s' es => .fail e s' es
  | .panicked msg => .panicked msg
  | .oof => .oof

instance : Monad PM where
  pure := PM.pure
  bind := PM.bind

/-- Raise a `SyntaxError` (the `Err(SyntaxError(start, end, msg))` pattern). -/
def throwSyn (start : Nat) (end_ : Nat) (msg : String) : PM α :=
  fun s => .fail ⟨start, end_, msg⟩ s []

/-- A Rust abort: `panic!`, a failed `assert!`, an out-of-range `Vec` index
or `Option::unwrap` on `None`. -/
def panicP (msg : String) : PM α := fun _ => .panicked msg

def getSt : PM PSt := fun s => .ok s s []

def setSt (s' : PSt) : PM Unit := fun _ => .ok () s' []

def modifySt (f : PSt → PSt) : PM Unit := fun s => .ok () (f s) []

/-- Push one diagnostic (`self.errors.push`). -/
def pushErr (e : AnalyzerError) : PM Unit := fun s => .ok () s [e]

/-- Run `m`; turn its `SyntaxError` into a value, keeping state mutations
and pushed diagnostics, as a caught `Err(e)` does in the source. -/
def attemptE (m : PM α) : PM (Except SyntaxError α) := fun s =>
  match m s with
  | .ok a s' es => .ok (.ok a) s' es
  | .fail e s' es => .ok (.error e) s' es
  | .panicked msg => .panicked msg
  | .oof => .oof

/-- Restore the cursor (`self.current = saved`), leaving all other state
fields as they are — exactly what the tentative parsers in the source do. -/
def restoreCur (pos : Nat) : PM Unit :=
  modifySt (fun s => { s with current := pos })

/-- Translation of `advance`: index the current token (a `Vec` index, which
panics past the end) and step the cursor, returning the indexed token. -/
def advance : PM Token := fun s =>
  match s.tokens.get? s.current with
  | some t => .ok t { s with current := s.current + 1 } []
  | none => .panicked "index out of bounds"

/-- Translation of `peek`, including its explicit out-of-range panic. -/
def peek : PM Token := fun s =>
  match s.tokens.get? s.current with
  | some t => .ok t s []
  | none => .panicked "syntax::peek: current index out of range"

/-- Translation of `prev`. -/
def prevPM : PM (Option Token) := fun s =>
  if s.current = 0 then .ok none s []
  else
    match s.tokens.get? (s.current - 1) with
    | some t => .ok (some t) s []
    | none => .panicked "index out of bounds"

/-- Translation of `prev().unwrap()` — panics when `prev` is `None`. -/
def prevUnwrap : PM Token := do
  match (← prevPM) with
  | some t => pure t
  | none => panicP "called Option::unwrap on a None value"

/-- Translation of `is`. -/
def is (token_type : TokenType) : PM Bool := do
  pure ((← peek).token_type == token_type)

/-- Translation of `consume`: advance iff the current token matches. -/
def consume (token_type : TokenType) : PM Bool := do
  if (← is token_type) then
    let _ ← advance
    pure true
  else
    pure false

/-- Translation of `must`: clone the head token, advance unconditionally,
then fail with `expected '<kind>'` on a mismatch (the cursor having moved),
or return the token. -/
def must (expect : TokenType) : PM Token := do
  let token ← peek
  let _ ← advance
  if token.token_type ≠ expect then
    throwSyn token.start token.end_ ("expected '" ++ tokenTypeStr expect ++ "'")
  else
    pure token

/-- Translation of `next` (`parser_next`). -/
def next (step : Nat) : PM (Option Token) := fun s =>
  if s.current + step ≥ s.tokens.length then .ok none s []
  else .ok (s.tokens.get? (s.current + step)) s []

/-- Translation of `next_is` (`parser_next_is`). -/
def next_is (step : Nat) (expect : TokenType) : PM Bool := do
  match (← next step) with
  | some t => pure (t.token_type == expect)
  | none => pure false

/-- Translation of `is_stmt_eof`. -/
def is_stmt_eof : PM Bool := do
  pure ((← is .StmtEof) || (← is .Eof))

/-- Translation of `stmt_new`: a statement node spanning the current token. -/
def stmt_new : PM Stmt := do
  let t ← peek
  pure (Stmt.mk t.start t.end_ .None)

/-- Translation of `expr_new`: an expression node spanning the current token. -/
def expr_new : PM Expr := do
  let t ← peek
  pure (Expr.mk t.start t.end_ Ty.default Ty.default .None)

/-- Translation of `fake_new`. -/
def fake_new (e : Expr) : PM Stmt := do
  let stmt ← stmt_new
  pure (stmt.setNode (.Fake e))

/-- The token kinds accepted by `is_basic_type`. -/
def tokenIsBasicType (tt : TokenType) : Bool :=
  match tt with
  | .Var | .Null | .Void
  | .Int | .I8 | .I16 | .I32 | .I64
  | .Uint | .U8 | .U16 | .U32 | .U64
  | .Float | .F32 | .F64
  | .Bool | .String => true
  | _ => false

/-- Translation of `is_basic_type`. -/
def is_basic_type : PM Bool := do
  pure (tokenIsBasicType (← peek).token_type)

/-- Translation of `must_stmt_end`. -/
def must_stmt_end : PM Unit := do
  if (← is .Eof) || (← is .RightCurly) then
    pure ()
  else if (← is .StmtEof) then
    let _ ← advance
    pure ()
  else do
    let prev_token ← prevUnwrap
    throwSyn prev_token.start prev_token.end_ "expected ';' or '\x7d' at end of statement"

/-- Tags naming the prefix parser slots of the rule table (the source
stores `fn` pointers; the shallow embedding dispatches on a tag). -/
inductive PrefixK where
  | leftParenExpr | vecNew | leftCurlyExpr | macroCall | unary | literal
  | matchIsExpr | identExpr
  deriving DecidableEq, Repr

/-- Tags naming the infix parser slots of the rule table. -/
inductive InfixK where
  | callExpr | accessExpr | binaryExpr | typeArgsExpr | selectExpr
  | asExpr | isExpr | catchExpr
  deriving DecidableEq, Repr

/-- One row of the operator table (`ParserRule`): optional prefix and infix
parsers and the infix precedence. -/
structure ParserRule where
  prefixK : Option PrefixK
  infixK : Option InfixK
  infix_precedence : SyntaxPrecedence
  deriving DecidableEq, Repr

/-- Translation of `find_rule`, the operator / precedence table.  Note that
`Percent` has no row in the source and therefore falls to the default rule. -/
def find_rule (token_type : TokenType) : ParserRule :=
  match token_type with
  | .LeftParen => ⟨some .leftParenExpr, some .callExpr, .Call⟩
  | .LeftSquare => ⟨some .vecNew, some .accessExpr, .Call⟩
  | .LeftCurly => ⟨some .leftCurlyExpr, none, .Null⟩
  | .LessThan => ⟨none, some .binaryExpr, .Compare⟩
  | .LeftAngle => ⟨none, some .typeArgsExpr, .Call⟩
  | .MacroIdent => ⟨some .macroCall, none, .Null⟩
  | .Dot => ⟨none, some .selectExpr, .Call⟩
  | .Minus => ⟨some .unary, some .binaryExpr, .Term⟩
  | .Plus => ⟨none, some .binaryExpr, .Term⟩
  | .Not => ⟨some .unary, none, .Unary⟩
  | .Tilde => ⟨some .unary, none, .Unary⟩
  | .And => ⟨some .unary, some .binaryExpr, .And⟩
  | .Or => ⟨none, some .binaryExpr, .Or⟩
  | .Xor => ⟨none, some .binaryExpr, .Xor⟩
  | .LeftShift => ⟨none, some .binaryExpr, .Shift⟩
  | .Star => ⟨some .unary, some .binaryExpr, .Factor⟩
  | .Slash => ⟨none, some .binaryExpr, .Factor⟩
  | .OrOr => ⟨none, some .binaryExpr, .OrOr⟩
  | .AndAnd => ⟨none, some .binaryExpr, .AndAnd⟩
  | .NotEqual | .EqualEqual => ⟨none, some .binaryExpr, .CmpEqual⟩
  | .RightShift => ⟨none, some .binaryExpr, .Shift⟩
  | .RightAngle | .GreaterEqual | .LessEqual => ⟨none, some .binaryExpr, .Compare⟩
  | .StringLiteral | .IntLiteral | .FloatLiteral | .True | .False | .Null =>
    ⟨some .literal, none, .Null⟩
  | .As => ⟨none, some .asExpr, .TypeCast⟩
  | .Is => ⟨some .matchIsExpr, some .isExpr, .TypeCast⟩
  | .Catch => ⟨none, some .catchExpr, .Catch⟩
  | .Ident => ⟨some .identExpr, none, .Null⟩
  | _ => ⟨none, none, .Null⟩

/-- Inner loop of `parser_is_tuple_typedecl`.  The loop condition tests the
shadowed outer token (always `LeftParen`), so the loop exits only through
the `close == 0` break or by indexing past the end of the token vector;
the fuel equals one more than the vector length, which the strictly
increasing position can never consume. -/
def tupleScanLoop (tokens : List Token) : Nat → Nat → Int → Except String Nat
  | 0, _, _ => .error "index out of bounds"
  | fuel+1, pos, close =>
    match tokens.get? (pos + 1) with
    | none => .error "index out of bounds"
    | some t =>
      let close1 := if t.token_type == .LeftParen then close + 1 else close
      if t.token_type == .RightParen then
        let close2 := close1 - 1
        if close2 == 0 then .ok (pos + 1)
        else tupleScanLoop tokens fuel (pos + 1) close2
      else tupleScanLoop tokens fuel (pos + 1) close1

/-- Translation of `parser_is_tuple_typedecl`: balanced-paren scan,
recognised only when the matching `)` is directly followed by an
identifier. -/
def parser_is_tuple_typedecl (current : Nat) : PM Bool := fun s =>
  match s.tokens.get? current with
  | none => .panicked "index out of bounds"
  | some t =>
    if t.token_type ≠ .LeftParen then .panicked "tuple type decl start left param"
    else
      match tupleScanLoop s.tokens (s.tokens.length + 1) current 1 with
      | .error msg => .panicked msg
      | .ok pos =>
        match s.tokens.get? (pos + 1) with
        | none => .panicked "index out of bounds"
        | some t2 => .ok (t2.token_type == .Ident) s []

/-- Inner loop of `is_for_tradition_stmt`: scan the current source line,
counting top-level `StmtEof`s.  The counting happens before the
line-change test, exactly as in the source. -/
def forTradLoop (tokens : List Token) (line : Nat) :
    Nat → Nat → Int → Nat → Except Unit Nat
  | 0, _, _, count => .ok count
  | fuel+1, pos, close, count =>
    match tokens.get? pos with
    | none => .ok count
    | some t =>
      if t.token_type == .Eof then .error ()
      else
        let count1 := if close == 0 && t.token_type == .StmtEof then count + 1 else count
        let close1 := if t.token_type == .LeftCurly then close + 1 else close
        let close2 := if t.token_type == .RightCurly then close1 - 1 else close1
        if t.line ≠ line then .ok count1
        else forTradLoop tokens line fuel (pos + 1) close2 count1

/-- Translation of `is_for_tradition_stmt`. -/
def is_for_tradition_stmt : PM Bool := fun s =>
  match s.tokens.get? s.current with
  | none => .panicked "index out of bounds"
  | some t0 =>
    match forTradLoop s.tokens t0.line (s.tokens.length + 1) s.current 0 0 with
    | .error _ => .fail ⟨t0.start, t0.end_, "unexpected end of file"⟩ s []
    | .ok count =>
      if count ≠ 0 && count ≠ 2 then
        .fail ⟨t0.start, t0.end_, "for statement must have two semicolons"⟩ s []
      else
        .ok (count == 2) s []

/-- Inner loop of `is_impl_fn`'s angle-bracket scan.  The scan starts on the
opening `<` itself with `close` already 1, so the opener is counted twice —
embedded exactly as written. -/
def implFnScanLoop (tokens : List Token) (line : Nat) :
    Nat → Nat → Int → Except String (Nat × Int)
  | 0, pos, close => .ok (pos, close)
  | fuel+1, pos, close =>
    match tokens.get? pos with
    | none => .ok (pos, close)
    | some t =>
      if t.token_type == .Eof || t.token_type == .StmtEof || t.line ≠ line then
        .ok (pos, close)
      else
        let close1 := if t.token_type == .LeftAngle then close + 1 else close
        if t.token_type == .RightAngle then
          let close2 := close1 - 1
          if close2 == 0 then .ok (pos, close2)
          else implFnScanLoop tokens line fuel (pos + 1) close2
        else implFnScanLoop tokens line fuel (pos + 1) close1

/-- Translation of `is_impl_fn`. -/
def is_impl_fn : PM Bool := do
  if (← is_basic_type) then pure true
  else if (← is .Vec) || (← is .Map) || (← is .Set) then pure true
  else if (← is .Chan) then pure true
  else if (← is .Ident) && (← next_is 1 .Dot) then pure true
  else if (← is .Ident) && (← next_is 1 .LeftParen) then pure false
  else if (← is .Ident) && (← next_is 1 .LeftAngle) then do
    let s ← getSt
    match s.tokens.get? (s.current + 1) with
    | none => panicP "index out of bounds"
    | some t1 =>
      match implFnScanLoop s.tokens t1.line (s.tokens.length + 1) (s.current + 1) 1 with
      | .error msg => panicP msg
      | .ok (pos, close) =>
        if close > 0 then pure false
        else
          match s.tokens.get? (pos + 1) with
          | none => panicP "index out of bounds"
          | some nextTok =>
            if nextTok.token_type == .Dot then pure true
            else pure false
  else pure false

/-- Inner loop of `is_struct_param_new_prefix`: the position is stepped
before each read, so indexing one past the final token panics, exactly as
the `Vec` index in the source would. -/
def structParamScanLoop (tokens : List Token) :
    Nat → Nat → Int → Except String (Option Nat)
  | 0, _, _ => .error "index out of bounds"
  | fuel+1, pos, close =>
    if pos < tokens.length then
      match tokens.get? (pos + 1) with
      | none => .error "index out of bounds"
      | some t =>
        let close1 := if t.token_type == .LeftAngle then close + 1 else close
        if t.token_type == .RightAngle then
          let close2 := close1 - 1
          if close2 == 0 then .ok (some (pos + 1))
          else if t.token_type == .Eof then .ok none
          else structParamScanLoop tokens fuel (pos + 1) close2
        else if t.token_type == .Eof then .ok none
        else structParamScanLoop tokens fuel (pos + 1) close1
    else
      .ok none

/-- Translation of `is_struct_param_new_prefix`: balanced `<`/`>` scan that
succeeds iff the matching `>` is immediately followed by `{`. -/
def is_struct_param_new_prefix (current : Nat) : PM Bool := fun s =>
  match s.tokens.get? current with
  | none => .panicked "index out of bounds"
  | some t =>
    if t.token_type ≠ .LeftAngle then .ok false s []
    else
      match structParamScanLoop s.tokens (s.tokens.length + 1) current 1 with
      | .error msg => .panicked msg
      | .ok none => .ok false s []
      | .ok (some pos) =>
        if pos + 1 ≥ s.tokens.length then .ok false s []
        else
          match s.tokens.get? (pos + 1) with
          | none => .ok false s []
          | some t2 => .ok (t2.token_type == .LeftCurly) s []

/-- The `foo.bar<a, b> {}` head shape of `parser_is_struct_new_expr`
(its fourth `if`), shared by the fall-through paths of the translation. -/
def structNewDotAngle (s : PSt) : PM Bool := do
  if (← is .Ident) && (← next_is 1 .Dot) && (← next_is 2 .Ident)
     && (← next_is 3 .LeftAngle) then
    if (← is_struct_param_new_prefix (s.current + 3)) then pure true
    else pure false
  else pure false

/-- Translation of `parser_is_struct_new_expr`: the four struct-literal
head shapes `Ident {`, `Ident.Ident {`, `Ident<...> {`, `Ident.Ident<...> {`,
checked in order. -/
def parser_is_struct_new_expr : PM Bool := do
  if (← is .Ident) && (← next_is 1 .LeftCurly) then pure true
  else if (← is .Ident) && (← next_is 1 .Dot) && (← next_is 2 .Ident)
       && (← next_is 3 .LeftCurly) then pure true
  else do
    let s ← getSt
    if (← is .Ident) && (← next_is 1 .LeftAngle) then
      if (← is_struct_param_new_prefix (s.current + 1)) then pure true
      else structNewDotAngle s
    else structNewDotAngle s

/-- The statement-starting keywords that `synchronize` accepts as a
re-sync point. -/
def syncKeyword (tt : TokenType) : Bool :=
  match tt with
  | .Fn | .Var | .Return | .If | .For | .Match | .Try | .Catch
  | .Continue | .Break | .Import | .Type_ => true
  | _ => false

/-- Inner loop of `synchronize`; each iteration either returns or advances
one token, so a fuel of one more than the remaining token count is never
exhausted. -/
def syncAux (cur : Int) : Nat → Int → PM Bool
  | 0, _ => fun _ => .oof
  | fuel+1, lvl => do
    let token ← peek
    let tt := token.token_type
    if tt == .Eof then pure false
    else if tt == .StmtEof && lvl == cur then do
      let _ ← advance
      pure true
    else if lvl == cur && (syncKeyword tt || tokenIsBasicType tt) then pure true
    else
      let lvl1 := if tt == .LeftCurly then lvl + 1
                  else if tt == .RightCurly then lvl - 1 else lvl
      if tt == .RightCurly && lvl1 < cur then pure false
      else do
        let _ ← advance
        syncAux cur fuel lvl1

/-- Translation of `synchronize`: advance to the next statement boundary at
the caller's brace level, reporting whether one was found. -/
def synchronize (current_brace_level : Int) : PM Bool := fun s =>
  syncAux current_brace_level (s.tokens.length + 1 - s.current)
    current_brace_level s

/-- Translation of `expr_to_type_alias`: rebuild an identifier or
`pkg.ident` selection expression as a type-alias descriptor; any other
shape panics, as in the source. -/
def expr_to_type_alias (left_expr : Expr) (generics_args : Option (List Ty)) :
    PM Ty := do
  let t0 ← peek
  let base := Ty.mk .Unknown t0.start t0.end_ .Undo none none .Unknown
  match left_expr.node with
  | .Ident id =>
    let aliasVal := TypeAlias.mk id none generics_args
    pure (((base.setOriginIdent (some id)).setOriginTypeKind
      (.Alias TypeAlias.default)).setKind (.Alias aliasVal))
  | .Select l key =>
    match l.node with
    | .Ident left_ident =>
      let aliasVal := TypeAlias.mk key (some left_ident) generics_args
      pure (((base.setOriginIdent (some key)).setOriginTypeKind
        (.Alias TypeAlias.default)).setKind (.Alias aliasVal))
    | _ => panicP "struct new left type exception"
  | _ => panicP "struct new left type exception"

/-- Translation of `coroutine_fn_closure`: the synthesised zero-parameter
void closure `var result = <call>; co_return(&result)`. -/
def coroutine_fn_closure (call_expr : Expr) : PM AstFnDef := do
  let fndef := ((AstFnDef.default.setIsCoAsync true).setParams []).setReturnType
    (Ty.new .Void)
  let vardef_stmt0 ← stmt_new
  let vardef_stmt := vardef_stmt0.setNode (.VarDef
    (VarDeclExpr.mk (Ty.new .Unknown) "result" 0 0 false none) call_expr)
  let call_stmt0 ← stmt_new
  let call := AstCall.mk Ty.default
    (Expr.identExpr fndef.start fndef.end_ "co_return") []
    [Expr.default.setNode (.Unary .La
      (Expr.identExpr fndef.start fndef.end_ "result"))] false
  let call_stmt := call_stmt0.setNode (.Call call)
  pure (fndef.setBody [vardef_stmt, call_stmt])

/-- Translation of `coroutine_fn_void_closure`: the synthesised closure
holding just the bare call. -/
def coroutine_fn_void_closure (call_expr : Expr) : PM AstFnDef := do
  let fndef := ((AstFnDef.default.setIsCoAsync true).setParams []).setReturnType
    (Ty.new .Void)
  let call_stmt0 ← stmt_new
  let call_stmt :=
    match call_expr.node with
    | .Call call => call_stmt0.setNode (.Call call)
    | _ => call_stmt0
  pure (fndef.setBody [call_stmt])

/-- Translation of `parser_literal`. -/
def parser_literal : PM Expr := do
  let expr ← expr_new
  let literal_token ← advance
  let kind := token_to_type_kind literal_token.token_type
  pure (expr.setNode (.Literal kind literal_token.literal))

/-- Translation of `parser_ident_expr`. -/
def parser_ident_expr : PM Expr := do
  let expr ← expr_new
  let ident_token ← must .Ident
  pure (expr.setNode (.Ident ident_token.literal))

/-- Translation of `parser_select`. -/
def parser_select (left : Expr) : PM Expr := do
  let expr ← expr_new
  let _ ← must .Dot
  let property_token ← must .Ident
  pure (expr.setNode (.Select left property_token.literal))

/-- Translation of `parser_continue_stmt`. -/
def parser_continue_stmt : PM Stmt := do
  let stmt ← stmt_new
  let _ ← must .Continue
  pure (stmt.setNode .Continue)

/-- Translation of `parser_macro_default_expr`. -/
def parser_macro_default_expr : PM Expr := do
  let expr ← expr_new
  let _ ← must .LeftParen
  let _ ← must .RightParen
  pure (expr.setNode .MacroDefault)

/-- Inner loop of `parser_import_stmt`: `.ident` segments. -/
def importDotsLoop : Nat → List String → PM (List String)
  | 0, _ => fun _ => .oof
  | fuel+1, acc => do
    if (← consume .Dot) then do
      let ident ← must .Ident
      importDotsLoop fuel (acc ++ [ident.literal])
    else
      pure acc

/-- Translation of `parser_import_stmt`. -/
def parser_import_stmt : PM Stmt := do
  let stmt ← stmt_new
  let _ ← advance
  let token ← advance
  let (file, ast_package) ←
    if token.token_type == .StringLiteral then
      pure (some token.literal, (none : Option (List String)))
    else if token.token_type == .Ident then do
      let s ← getSt
      let package ← importDotsLoop (s.tokens.length + 1) [token.literal]
      pure ((none : Option String), some package)
    else
      throwSyn token.start token.end_ "import token must be string or ident"
  let as_name ←
    if (← consume .As) then do
      let t ← advance
      if t.token_type ≠ .Ident ∧ t.token_type ≠ .ImportStar then
        throwSyn t.start t.end_ "import as token must be ident or *"
      else
        pure (some t.literal)
    else
      pure (none : Option String)
  pure (stmt.setNode (.Import
    ⟨file, ast_package, as_name, 0, "", none, "", false, ""⟩))

/-- The left-expression shapes that may precede a generic argument list in
`parser_left_angle_is_type_args`: an identifier, or a selection whose left
side is an identifier. -/
def typeArgsLeftShape (left : Expr) : Bool :=
  match left.node with
  | .Ident _ => true
  | .Select l _ =>
    match l.node with
    | .Ident _ => true
    | _ => false
  | _ => false

/-- Insert a key into the generic-parameter scope
(`self.type_params_table.insert(k, k)`). -/
def tptInsert (id : String) : PM Unit :=
  modifySt (fun s => { s with type_params_table := id :: s.type_params_table })

/-- Clear the generic-parameter scope
(`self.type_params_table = HashMap::new()`). -/
def tptClear : PM Unit :=
  modifySt (fun s => { s with type_params_table := [] })

/-- Translation of Rust `str::parse::<u64>()`: an optional leading `+`
followed by one or more decimal digits, with the value below `2 ^ 64`. -/
def parse_u64 (s : String) : Option Nat :=
  let cs0 := s.toList
  let cs := match cs0 with
    | '+' :: rest => rest
    | _ => cs0
  if cs.isEmpty then none
  else if cs.all (fun c => c.isDigit) then
    let v := cs.foldl (fun acc c => acc * 10 + (c.toNat - '0'.toNat)) 0
    if v < 2 ^ 64 then some v else none
  else none

/-- Modelled from the spec: `AstNode::can_assign` (declared in the missing
`common.rs`): an expression usable as an assignment target — an identifier,
an index access or a selection. -/
def AstNode.can_assign : AstNode → Bool
  | .Ident _ => true
  | .Access _ _ => true
  | .Select _ _ => true
  | _ => false

/-- Translation of `is_impl_type`: the type kinds permitted as an
impl-fn receiver. -/
def is_impl_type (kind : TypeKind) : Bool :=
  match kind with
  | .String | .Bool
  | .Int | .Uint | .Int8 | .Int16 | .Int32 | .Int64
  | .Uint8 | .Uint16 | .Uint32 | .Uint64
  | .Float | .Float32 | .Float64 => true
  | .Chan _ => true
  | .Vec _ => true
  | .Map _ _ => true
  | .Set _ => true
  | .Tuple _ _ => true
  | .Alias _ => true
  | _ => false

/-- Translation of `is_type_begin_stmt`: can the statement at the cursor
start with a type? -/
def is_type_begin_stmt : PM Bool := do
  if (← is_basic_type) then pure true
  else if (← is .Any) then pure true
  else if (← is .LeftCurly) || (← is .LeftSquare) then pure true
  else if (← is .Ptr) then pure true
  else if (match (← peek).token_type with
           | .Arr | .Map | .Tup | .Vec | .Set | .Chan => true
           | _ => false) then pure true
  else if (← is .Fn) && (← next_is 1 .LeftParen) then pure true
  else if (← is .Ident) && (← next_is 1 .Ident) then pure true
  else if (← is .Ident) && (← next_is 1 .Dot) && (← next_is 2 .Ident)
       && (← next_is 3 .Ident) then pure true
  else if (← is .Ident) && (← next_is 1 .Or) then pure true
  else if (← is .Ident) && (← next_is 1 .Dot) && (← next_is 2 .Ident)
       && (← next_is 3 .Or) then pure true
  else if (← is .Ident) && (← next_is 1 .LeftAngle) then pure true
  else if (← is .Ident) && (← next_is 1 .Dot) && (← next_is 2 .Ident)
       && (← next_is 3 .LeftAngle) then pure true
  else if (← is .LeftParen) then do
    let s ← getSt
    parser_is_tuple_typedecl s.current
  else pure false

mutual

/-- Translation of `parser_single_type` (recursive parts fuelled). -/
def parser_single_type : Nat → PM Ty
  | 0 => fun _ => .oof
  | fuel+1 => do
    let t0 ← peek
    let start := t0.start
    if (← consume .Any) then do
      let p ← prevUnwrap
      pure (Ty.mk (.Union true []) start p.end_ .Undo none none .Unknown)
    else if (← is_basic_type) then do
      let type_token ← advance
      let kind := token_to_type_kind type_token.token_type
      let origin :=
        if type_token.token_type == .Int || type_token.token_type == .Uint
           || type_token.token_type == .Float then
          (some type_token.literal, kind)
        else
          ((none : Option String), TypeKind.Unknown)
      let p ← prevUnwrap
      pure (Ty.mk kind start p.end_ .Undo (some (typeKindStr kind))
        origin.1 origin.2)
    else if (← consume .Ptr) then do
      let _ ← must .LeftAngle
      let value_type ← parser_type fuel
      let _ ← must .RightAngle
      let p ← prevUnwrap
      pure (Ty.mk (.Ptr value_type) start p.end_ .Undo none none .Unknown)
    else if (← consume .LeftSquare) then do
      let element_type ← parser_type fuel
      let _ ← must .RightSquare
      let p ← prevUnwrap
      pure (Ty.mk (.Vec element_type) start p.end_ .Undo none none .Unknown)
    else if (← consume .Vec) then do
      let _ ← must .LeftAngle
      let element_type ← parser_type fuel
      let _ ← must .RightAngle
      let p ← prevUnwrap
      pure (Ty.mk (.Vec element_type) start p.end_ .Undo none none .Unknown)
    else if (← consume .Map) then do
      let _ ← must .LeftAngle
      let key_type ← parser_type fuel
      let _ ← must .Comma
      let value_type ← parser_type fuel
      let _ ← must .RightAngle
      let p ← prevUnwrap
      pure (Ty.mk (.Map key_type value_type) start p.end_ .Undo none none .Unknown)
    else if (← consume .Set) then do
      let _ ← must .LeftAngle
      let element_type ← parser_type fuel
      let _ ← must .RightAngle
      let p ← prevUnwrap
      pure (Ty.mk (.Set element_type) start p.end_ .Undo none none .Unknown)
    else if (← consume .Tup) then do
      let _ ← must .LeftAngle
      let elements ← typeCommaLoop fuel
      let _ ← must .RightAngle
      let p ← prevUnwrap
      pure (Ty.mk (.Tuple elements 0) start p.end_ .Undo none none .Unknown)
    else if (← consume .Chan) then do
      let _ ← must .LeftAngle
      let element_type ← parser_type fuel
      let _ ← must .RightAngle
      let p ← prevUnwrap
      pure (Ty.mk (.Chan element_type) start p.end_ .Undo none none .Unknown)
    else if (← consume .Arr) then do
      let _ ← must .LeftAngle
      let element_type ← parser_type fuel
      let _ ← must .Comma
      let length_token ← must .IntLiteral
      match parse_u64 length_token.literal with
      | none =>
        throwSyn length_token.start length_token.end_
          "array length must be a valid integer"
      | some length =>
        if length == 0 then
          throwSyn length_token.start length_token.end_
            "array length must be greater than 0"
        else do
          let _ ← must .RightAngle
          let p ← prevUnwrap
          pure (Ty.mk (.Arr length element_type) start p.end_ .Undo none none
            .Unknown)
    else if (← consume .LeftParen) then do
      let elements ← typeCommaLoop fuel
      let _ ← must .RightParen
      let p ← prevUnwrap
      pure (Ty.mk (.Tuple elements 0) start p.end_ .Undo none none .Unknown)
    else if (← consume .LeftCurly) then do
      let key_type ← parser_type fuel
      if (← consume .Colon) then do
        let value_type ← parser_type fuel
        let _ ← must .RightCurly
        let p ← prevUnwrap
        pure (Ty.mk (.Map key_type value_type) start p.end_ .Undo none none
          .Unknown)
      else do
        let _ ← must .RightCurly
        let p ← prevUnwrap
        pure (Ty.mk (.Set key_type) start p.end_ .Undo none none .Unknown)
    else if (← consume .Struct) then do
      let _ ← must .LeftCurly
      let properties ← structPropsLoop fuel
      let _ ← must .RightCurly
      let p ← prevUnwrap
      pure (Ty.mk (.Struct "" 0 properties) start p.end_ .Undo none none
        .Unknown)
    else if (← consume .Fn) then do
      let _ ← must .LeftParen
      let param_types ←
        if (← consume .RightParen) then pure []
        else do
          let ps ← typeCommaLoop fuel
          let _ ← must .RightParen
          pure ps
      let return_type ←
        if (← consume .Colon) then parser_type fuel
        else pure (Ty.new .Void)
      let p ← prevUnwrap
      pure (Ty.mk (.Fn (TypeFn.mk none param_types return_type false false))
        start p.end_ .Undo none none .Unknown)
    else if (← is .Ident) then do
      let first ← advance
      let s ← getSt
      if s.type_params_table ≠ [] ∧ first.literal ∈ s.type_params_table then
        pure (Ty.mk (.Param first.literal) start 0 .Undo none
          (some first.literal) (.Param first.literal))
      else do
        let second ←
          if (← consume .Dot) then do
            let t ← advance
            pure (some t)
          else pure none
        let identTok := match second with
          | some second_token => second_token
          | none => first
        let import_as := match second with
          | some _ => some first.literal
          | none => none
        let origin_ident := match import_as with
          | some ia => some (ia ++ "." ++ identTok.literal)
          | none => some identTok.literal
        let args ←
          if (← consume .LeftAngle) then do
            let as_ ← singleTypeCommaLoop fuel
            let _ ← must .RightAngle
            pure (some as_)
          else pure none
        let p ← prevUnwrap
        pure (Ty.mk (.Alias (TypeAlias.mk identTok.literal import_as args))
          start p.end_ .Undo none origin_ident .Unknown)
    else do
      let pk ← peek
      throwSyn pk.start pk.end_ "Type definition exception"

/-- Loop of `parser_type`-elements separated by commas (the `tup<...>`,
`(T, T)` and `fn(...)` parameter lists). -/
def typeCommaLoop : Nat → PM (List Ty)
  | 0 => fun _ => .oof
  | fuel+1 => do
    let t ← parser_type fuel
    if (← consume .Comma) then do
      let rest ← typeCommaLoop fuel
      pure (t :: rest)
    else pure [t]

/-- Loop of `parser_single_type`-elements separated by commas (the
`alias<arg1, arg2, ...>` argument list). -/
def singleTypeCommaLoop : Nat → PM (List Ty)
  | 0 => fun _ => .oof
  | fuel+1 => do
    let t ← parser_single_type fuel
    if (← consume .Comma) then do
      let rest ← singleTypeCommaLoop fuel
      pure (t :: rest)
    else pure [t]

/-- Loop of `parser_single_type`-elements separated by `|` (generic
constraint lists). -/
def constraintOrLoop : Nat → PM (List Ty)
  | 0 => fun _ => .oof
  | fuel+1 => do
    let t ← parser_single_type fuel
    if (← consume .Or) then do
      let rest ← constraintOrLoop fuel
      pure (t :: rest)
    else pure [t]

/-- Field loop of the `struct { ... }` type form. -/
def structPropsLoop : Nat → PM (List TypeStructProperty)
  | 0 => fun _ => .oof
  | fuel+1 => do
    if (← is .RightCurly) then pure []
    else do
      let field_type ← parser_type fuel
      let name_token ← advance
      let default_value ←
        if (← consume .Equal) then do
          let expr ← parser_expr fuel
          match expr.node with
          | .FnDef _ =>
            throwSyn expr.start expr.end_
              "struct field default value cannot be a function definition"
          | _ => pure (some expr)
        else pure none
      must_stmt_end
      let rest ← structPropsLoop fuel
      pure (TypeStructProperty.mk field_type name_token.literal default_value :: rest)

/-- Translation of `parser_type`: a single type, then the `?` or `|`
union suffixes. -/
def parser_type : Nat → PM Ty
  | 0 => fun _ => .oof
  | fuel+1 => do
    let t ← parser_single_type fuel
    if !(← is .Or) && !(← is .Question) then pure t
    else do
      let u0 ← peek
      if (← consume .Question) then do
        let p ← prevUnwrap
        pure (Ty.mk (.Union false [t, Ty.new .Null]) u0.start p.end_ .Undo
          none none .Unknown)
      else do
        let _ ← must .Or
        let rest ← typeUnionLoop fuel
        let p ← prevUnwrap
        pure (Ty.mk (.Union false (t :: rest)) u0.start p.end_ .Undo
          none none .Unknown)

/-- Loop of the `T|E|...` union tail in `parser_type`. -/
def typeUnionLoop : Nat → PM (List Ty)
  | 0 => fun _ => .oof
  | fuel+1 => do
    let t2 ← parser_single_type fuel
    if (← consume .Or) then do
      let rest ← typeUnionLoop fuel
      pure (t2 :: rest)
    else pure [t2]

/-- Parameter loop of generic parameter lists (`<T[:c1|c2], ...>`), shared
by `parser_type_alias_stmt` and both sites in `parser_fndef_stmt`;
every parameter name is inserted into the generic-parameter scope. -/
def genericsParamsLoop : Nat → PM (List GenericsParam)
  | 0 => fun _ => .oof
  | fuel+1 => do
    let identTok ← advance
    let id := identTok.literal
    let param0 := GenericsParam.new id
    let param ←
      if (← consume .Colon) then do
        let cs ← constraintOrLoop fuel
        pure (param0.setConstraints false cs)
      else pure param0
    tptInsert id
    if (← consume .Comma) then do
      let rest ← genericsParamsLoop fuel
      pure (param :: rest)
    else pure [param]

/-- Translation of `parser_type_alias_stmt`. -/
def parser_type_alias_stmt : Nat → PM Stmt
  | 0 => fun _ => .oof
  | fuel+1 => do
    let stmt ← stmt_new
    let _ ← must .Type_
    let ident_token ← must .Ident
    let alias_args ←
      if (← consume .LeftAngle) then do
        if (← is .RightAngle) then do
          let pk ← peek
          throwSyn pk.start pk.end_ "type alias params cannot be empty"
        else do
          tptClear
          let args ← genericsParamsLoop fuel
          let _ ← must .RightAngle
          pure args
      else pure []
    let _ ← must .Equal
    let alias_type ← parser_type fuel
    tptClear
    pure (stmt.setNode (.TypeAlias (TypeAliasStmt.mk ident_token.literal
      ident_token.start ident_token.end_
      (if alias_args.isEmpty then none else some alias_args) alias_type)))

/-- Translation of `parser_var_decl`. -/
def parser_var_decl : Nat → PM VarDeclExpr
  | 0 => fun _ => .oof
  | fuel+1 => do
    let var_type ← parser_type fuel
    let var_ident ← must .Ident
    pure (VarDeclExpr.mk var_type var_ident.literal var_ident.start
      var_ident.end_ false none)

/-- Translation of `parser_params` (the `&mut AstFnDef` out-parameter is
returned as a pair of the parameter list and the rest-param flag). -/
def parser_params : Nat → PM (List VarDeclExpr × Bool)
  | 0 => fun _ => .oof
  | fuel+1 => do
    let _ ← must .LeftParen
    if (← consume .RightParen) then pure ([], false)
    else do
      let (ps, rest) ← paramsLoop fuel false
      let _ ← must .RightParen
      pure (ps, rest)

/-- Parameter loop of `parser_params`: a rest-param must be last. -/
def paramsLoop : Nat → Bool → PM (List VarDeclExpr × Bool)
  | 0, _ => fun _ => .oof
  | fuel+1, rest => do
    let rest1 ← if (← consume .Ellipsis) then pure true else pure rest
    let param ← parser_var_decl fuel
    if rest1 && !(← is .RightParen) then do
      let pk ← peek
      throwSyn pk.start pk.end_
        "can only use '...' as the final argument in the list"
    else if (← consume .Comma) then do
      let (ps, r) ← paramsLoop fuel rest1
      pure (param :: ps, r)
    else pure ([param], rest1)

/-- Translation of `parser_binary`: parse the right operand one precedence
level above the operator, making operators left-associative. -/
def parser_binary : Nat → Expr → PM Expr
  | 0, _ => fun _ => .oof
  | fuel+1, left => do
    let expr ← expr_new
    let operator_token ← advance
    let precedence := (find_rule operator_token.token_type).infix_precedence
    match precedence.next with
    | none => panicP "called Option::unwrap on a None value"
    | some next_prec => do
      let right ← parser_precedence_expr fuel next_prec .Unknown
      pure (expr.setNode (.Binary (token_to_expr_op operator_token.token_type)
        left right))

/-- Body of the tentative scan of `parser_left_angle_is_type_args`, run
after the `<` has been skipped; the caller restores the cursor. -/
def latiaBody : Nat → PM Bool
  | 0 => fun _ => .oof
  | fuel+1 => do
    match (← attemptE (parser_type fuel)) with
    | .error _ => pure false
    | .ok _ => do
      if (← is .RightAngle) then pure true
      else if (← consume .Comma) then do
        let ok ← latiaLoop fuel
        if !ok then pure false
        else if !(← is .RightAngle) then pure false
        else do
          let c ← next_is 1 .LeftCurly
          let p ← next_is 1 .LeftParen
          if !c && !p then pure false
          else pure true
      else pure false

/-- Comma loop inside the tentative scan: further types, `false` as soon
as one of them fails to parse. -/
def latiaLoop : Nat → PM Bool
  | 0 => fun _ => .oof
  | fuel+1 => do
    match (← attemptE (parser_type fuel)) with
    | .error _ => pure false
    | .ok _ => do
      if (← consume .Comma) then latiaLoop fuel
      else pure true

/-- Translation of `parser_left_angle_is_type_args`: decide whether a `<`
after `left` opens generic type arguments.  Only an identifier or an
`ident.ident` selection qualifies; the scan is tentative and always
restores the cursor. -/
def parser_left_angle_is_type_args : Nat → Expr → PM Bool
  | 0, _ => fun _ => .oof
  | fuel+1, left => do
    let s ← getSt
    let current_pos := s.current
    if !typeArgsLeftShape left then pure false
    else do
      let _ ← advance
      let r ← latiaBody fuel
      restoreCur current_pos
      pure r

/-- Translation of `parser_infix_token`: the effective infix token — `<`
demoted to less-than unless it opens type arguments, and `> >` collapsed
into a single right-shift (consuming one token). -/
def parser_infix_token : Nat → Expr → PM TokenType
  | 0, _ => fun _ => .oof
  | fuel+1, expr => do
    let t ← peek
    let infix0 := t.token_type
    let infix1 ←
      if infix0 == .LeftAngle then do
        if !(← parser_left_angle_is_type_args fuel expr) then pure .LessThan
        else pure infix0
      else pure infix0
    if infix1 == .RightAngle && (← next_is 1 .RightAngle) then do
      let _ ← advance
      pure .RightShift
    else pure infix1

/-- Translation of `parser_type_args_expr`: `left<T, ...>` followed by a
call or a struct literal; anything else fails the source's `assert!`. -/
def parser_type_args_expr : Nat → Expr → PM Expr
  | 0, _ => fun _ => .oof
  | fuel+1, left => do
    if !(← is .LeftAngle) then panicP "assertion failed: self.is(LeftAngle)"
    else do
      let expr ← expr_new
      let generics_args ←
        if (← consume .LeftAngle) then do
          let gs ← typeCommaLoop fuel
          let _ ← must .RightAngle
          pure gs
        else pure []
      if (← is .LeftParen) then do
        let (args, spread) ← parser_args fuel
        pure (expr.setNode (.Call (AstCall.mk Ty.default left generics_args
          args spread)))
      else do
        if !(← is .LeftCurly) then panicP "assertion failed: self.is(LeftCurly)"
        else do
          let t ← expr_to_type_alias left (some generics_args)
          parser_struct_new fuel t

/-- Translation of `parser_struct_new`: `{ key = value, ... }` after a
struct type. -/
def parser_struct_new : Nat → Ty → PM Expr
  | 0, _ => fun _ => .oof
  | fuel+1, type_ => do
    let expr ← expr_new
    let _ ← must .LeftCurly
    let properties ←
      if (← consume .RightCurly) then pure []
      else do
        let ps ← structNewLoop fuel
        let _ ← consume .StmtEof
        let _ ← must .RightCurly
        pure ps
    pure (expr.setNode (.StructNew "" type_ properties))

/-- Property loop of `parser_struct_new`. -/
def structNewLoop : Nat → PM (List StructNewProperty)
  | 0 => fun _ => .oof
  | fuel+1 => do
    let key ← must .Ident
    let _ ← must .Equal
    let value ← parser_expr fuel
    let prop := StructNewProperty.mk Ty.default key.literal value
    if (← consume .Comma) then do
      let rest ← structNewLoop fuel
      pure (prop :: rest)
    else pure [prop]

/-- Translation of `parser_unary`, with the `-literal` fusion. -/
def parser_unary : Nat → PM Expr
  | 0 => fun _ => .oof
  | fuel+1 => do
    let expr ← expr_new
    let operator_token ← advance
    match operator_token.token_type with
    | .Not => do
      let operand ← parser_precedence_expr fuel .Unary .Unknown
      pure (expr.setNode (.Unary .Not operand))
    | .Minus => do
      if (← is .IntLiteral) then do
        let int_token ← advance
        pure (expr.setNode (.Literal .Int ("-" ++ int_token.literal)))
      else if (← is .FloatLiteral) then do
        let float_token ← advance
        pure (expr.setNode (.Literal .Float ("-" ++ float_token.literal)))
      else do
        let operand ← parser_precedence_expr fuel .Unary .Unknown
        pure (expr.setNode (.Unary .Neg operand))
    | .Tilde => do
      let operand ← parser_precedence_expr fuel .Unary .Unknown
      pure (expr.setNode (.Unary .Bnot operand))
    | .And => do
      let operand ← parser_precedence_expr fuel .Unary .Unknown
      pure (expr.setNode (.Unary .La operand))
    | .Star => do
      let operand ← parser_precedence_expr fuel .Unary .Unknown
      pure (expr.setNode (.Unary .Ia operand))
    | _ =>
      throwSyn operator_token.start operator_token.end_
        ("unknown unary operator '" ++ operator_token.literal ++ "'")

/-- Translation of `parser_catch_expr`. -/
def parser_catch_expr : Nat → Expr → PM Expr
  | 0, _ => fun _ => .oof
  | fuel+1, left => do
    let expr ← expr_new
    let _ ← must .Catch
    let error_ident ← must .Ident
    let catch_err := VarDeclExpr.mk (Ty.new .Unknown) error_ident.literal
      error_ident.start error_ident.end_ false none
    let catch_body ← parser_body fuel
    pure (expr.setNode (.Catch left catch_err catch_body))

/-- Translation of `parser_as_expr`. -/
def parser_as_expr : Nat → Expr → PM Expr
  | 0, _ => fun _ => .oof
  | fuel+1, left => do
    let expr ← expr_new
    let _ ← must .As
    let target_type ← parser_single_type fuel
    pure (expr.setNode (.As target_type left))

/-- Translation of `parser_match_is_expr`: a bare `is T`, accepted exactly
when the `match_cond` flag is set. -/
def parser_match_is_expr : Nat → PM Expr
  | 0 => fun _ => .oof
  | fuel+1 => do
    let expr ← expr_new
    let _ ← must .Is
    let s ← getSt
    if !s.match_cond then do
      let pk ← peek
      throwSyn pk.start pk.end_ "is type must be specified in the match expression"
    else do
      let target_type ← parser_single_type fuel
      pure (expr.setNode (.MatchIs target_type))

/-- Translation of `parser_is_expr` (infix `left is T`). -/
def parser_is_expr : Nat → Expr → PM Expr
  | 0, _ => fun _ => .oof
  | fuel+1, left => do
    let expr ← expr_new
    let _ ← must .Is
    let target_type ← parser_single_type fuel
    pure (expr.setNode (.Is target_type left))

/-- Translation of `parser_left_paren_expr`: a parenthesised expression,
or a tuple literal when a comma follows. -/
def parser_left_paren_expr : Nat → PM Expr
  | 0 => fun _ => .oof
  | fuel+1 => do
    let _ ← must .LeftParen
    let expr ← parser_expr fuel
    if (← consume .RightParen) then pure expr
    else do
      let _ ← must .Comma
      let elements ← exprCommaLoop fuel
      let _ ← must .RightParen
      let tuple_expr ← expr_new
      pure (tuple_expr.setNode (.TupleNew (expr :: elements)))

/-- Loop of `parser_expr`-elements separated by commas (tuple tails and
vector literals). -/
def exprCommaLoop : Nat → PM (List Expr)
  | 0 => fun _ => .oof
  | fuel+1 => do
    let element ← parser_expr fuel
    if (← consume .Comma) then do
      let rest ← exprCommaLoop fuel
      pure (element :: rest)
    else pure [element]

/-- Translation of `parser_access` (indexing `left[key]`). -/
def parser_access : Nat → Expr → PM Expr
  | 0, _ => fun _ => .oof
  | fuel+1, left => do
    let expr ← expr_new
    let _ ← must .LeftSquare
    let key ← parser_expr fuel
    let _ ← must .RightSquare
    pure (expr.setNode (.Access left key))

/-- Translation of `parser_args` (the `&mut AstCall` out-parameter is
returned as a pair of the argument list and the spread flag). -/
def parser_args : Nat → PM (List Expr × Bool)
  | 0 => fun _ => .oof
  | fuel+1 => do
    let _ ← must .LeftParen
    if (← consume .RightParen) then pure ([], false)
    else do
      let (args, spread) ← argsLoop fuel false
      let _ ← must .RightParen
      pure (args, spread)

/-- Argument loop of `parser_args`: a spread argument must be last. -/
def argsLoop : Nat → Bool → PM (List Expr × Bool)
  | 0, _ => fun _ => .oof
  | fuel+1, spread => do
    let spread1 ← if (← consume .Ellipsis) then pure true else pure spread
    let expr ← parser_expr fuel
    if spread1 && !(← is .RightParen) then do
      let pk ← peek
      throwSyn pk.start pk.end_
        "can only use '...' as the final argument in the list"
    else if (← consume .Comma) then do
      let (es, sp) ← argsLoop fuel spread1
      pure (expr :: es, sp)
    else pure ([expr], spread1)

/-- Translation of `parser_call_expr`. -/
def parser_call_expr : Nat → Expr → PM Expr
  | 0, _ => fun _ => .oof
  | fuel+1, left => do
    let expr ← expr_new
    let (args, spread) ← parser_args fuel
    pure (expr.setNode (.Call (AstCall.mk Ty.default left [] args spread)))

/-- Translation of `parser_vec_new`. -/
def parser_vec_new : Nat → PM Expr
  | 0 => fun _ => .oof
  | fuel+1 => do
    let expr ← expr_new
    let _ ← must .LeftSquare
    let elements ←
      if (← consume .RightSquare) then pure []
      else do
        let es ← exprCommaLoop fuel
        let _ ← must .RightSquare
        pure es
    pure (expr.setNode (.VecNew elements none none))

/-- Translation of `parser_left_curly_expr`: empty curly, map literal or
set literal. -/
def parser_left_curly_expr : Nat → PM Expr
  | 0 => fun _ => .oof
  | fuel+1 => do
    let expr ← expr_new
    let _ ← must .LeftCurly
    if (← consume .RightCurly) then pure (expr.setNode .EmptyCurlyNew)
    else do
      let key_expr ← parser_expr fuel
      if (← consume .Colon) then do
        let value ← parser_expr fuel
        let rest ← mapTailLoop fuel
        let _ ← consume .StmtEof
        let _ ← must .RightCurly
        pure (expr.setNode (.MapNew (MapElement.mk key_expr value :: rest)))
      else do
        let rest ← setTailLoop fuel
        let _ ← must .RightCurly
        pure (expr.setNode (.SetNew (key_expr :: rest)))

/-- Element loop of the map-literal tail. -/
def mapTailLoop : Nat → PM (List MapElement)
  | 0 => fun _ => .oof
  | fuel+1 => do
    if (← consume .Comma) then do
      let key ← parser_expr fuel
      let _ ← must .Colon
      let value ← parser_expr fuel
      let rest ← mapTailLoop fuel
      pure (MapElement.mk key value :: rest)
    else pure []

/-- Element loop of the set-literal tail. -/
def setTailLoop : Nat → PM (List Expr)
  | 0 => fun _ => .oof
  | fuel+1 => do
    if (← consume .Comma) then do
      let element ← parser_expr fuel
      let rest ← setTailLoop fuel
      pure (element :: rest)
    else pure []

/-- Translation of `parser_fndef_expr`: anonymous function expression,
optionally immediately called. -/
def parser_fndef_expr : Nat → PM Expr
  | 0 => fun _ => .oof
  | fuel+1 => do
    let expr ← expr_new
    let pk ← peek
    let _ ← must .Fn
    let fndef0 := (AstFnDef.default.setStart pk.start).setEnd pk.end_
    let fndef1 ←
      if (← is .Ident) then do
        let name_token ← advance
        pure ((fndef0.setSymbolName name_token.literal).setFnName
          (some name_token.literal))
      else pure fndef0
    let (params, rest) ← parser_params fuel
    let fndef2 := (fndef1.setParams params).setRestParam rest
    let return_type ←
      if (← consume .Colon) then parser_type fuel
      else pure (Ty.new .Void)
    let body ← parser_body fuel
    let fndef3 := (fndef2.setReturnType return_type).setBody body
    let expr1 := expr.setNode (.FnDef fndef3)
    if (← is .LeftParen) then do
      let (args, spread) ← parser_args fuel
      let call_expr ← expr_new
      pure (call_expr.setNode (.Call (AstCall.mk Ty.default expr1 [] args
        spread)))
    else pure expr1

/-- Translation of `parser_new_expr`. -/
def parser_new_expr : Nat → PM Expr
  | 0 => fun _ => .oof
  | fuel+1 => do
    let expr ← expr_new
    let _ ← must .New
    let t ← parser_type fuel
    pure (expr.setNode (.New t []))

/-- Translation of `parser_macro_sizeof`. -/
def parser_macro_sizeof : Nat → PM Expr
  | 0 => fun _ => .oof
  | fuel+1 => do
    let expr ← expr_new
    let _ ← must .LeftParen
    let target_type ← parser_single_type fuel
    let _ ← must .RightParen
    pure (expr.setNode (.MacroSizeof target_type))

/-- Translation of `parser_macro_reflect_hash`. -/
def parser_macro_reflect_hash : Nat → PM Expr
  | 0 => fun _ => .oof
  | fuel+1 => do
    let expr ← expr_new
    let _ ← must .LeftParen
    let target_type ← parser_single_type fuel
    let _ ← must .RightParen
    pure (expr.setNode (.MacroReflectHash target_type))

/-- Translation of `parser_macro_co_async_expr`:
`@co_async(call [, flag])`. -/
def parser_macro_co_async_expr : Nat → PM Expr
  | 0 => fun _ => .oof
  | fuel+1 => do
    let expr ← expr_new
    let _ ← must .LeftParen
    let call_expr ← parser_expr fuel
    match call_expr.node with
    | .Call call => do
      let closure_fn ← coroutine_fn_closure call_expr
      let closure_fn_void ← coroutine_fn_void_closure call_expr
      let flag_expr ←
        if (← consume .Comma) then do
          let fe ← parser_expr fuel
          pure (some fe)
        else pure none
      let _ ← must .RightParen
      pure (expr.setNode (.MacroCoAsync (MacroCoAsyncExpr.mk call closure_fn
        closure_fn_void flag_expr (Ty.new .Void))))
    | _ => panicP "co_async expr must be call"

/-- Translation of `parser_macro_ula_expr`. -/
def parser_macro_ula_expr : Nat → PM Expr
  | 0 => fun _ => .oof
  | fuel+1 => do
    let expr ← expr_new
    let _ ← must .LeftParen
    let src ← parser_expr fuel
    let _ ← must .RightParen
    pure (expr.setNode (.MacroUla src))

/-- Translation of `parser_macro_call`: dispatch on the macro name;
unknown names are an error. -/
def parser_macro_call : Nat → PM Expr
  | 0 => fun _ => .oof
  | fuel+1 => do
    let token ← must .MacroIdent
    if token.literal == "sizeof" then parser_macro_sizeof fuel
    else if token.literal == "reflect_hash" then parser_macro_reflect_hash fuel
    else if token.literal == "default" then parser_macro_default_expr
    else if token.literal == "co_async" then parser_macro_co_async_expr fuel
    else if token.literal == "ula" then parser_macro_ula_expr fuel
    else
      throwSyn token.start token.end_
        ("macro '" ++ token.literal ++ "' not defined")

/-- Translation of `parser_match_expr`: optional subject, then arms. -/
def parser_match_expr : Nat → PM Expr
  | 0 => fun _ => .oof
  | fuel+1 => do
    let _ ← must .Match
    let expr ← expr_new
    let subject ←
      if !(← is .LeftCurly) then do
        let sub ← parser_expr_with_precedence fuel
        modifySt (fun s => { s with match_subject := true })
        pure (some sub)
      else pure none
    let _ ← must .LeftCurly
    let cases ← matchArmsLoop fuel subject
    modifySt (fun s => { s with match_subject := false })
    pure (expr.setNode (.Match subject cases))

/-- Arm loop of `parser_match_expr`: with a subject each arm may hold
several `|`-separated conditions, without one it holds exactly the result
of one `parser_expr`; `match_cond` is set while conditions are parsed. -/
def matchArmsLoop : Nat → Option Expr → PM (List MatchCase)
  | 0, _ => fun _ => .oof
  | fuel+1, subject => do
    if (← consume .RightCurly) then pure []
    else do
      modifySt (fun s => { s with match_cond := true })
      let cond_list ←
        match subject with
        | some _ => matchCondLoop fuel
        | none => do
          let e ← parser_expr fuel
          pure [e]
      let _ ← must .RightArrow
      modifySt (fun s => { s with match_cond := false })
      let handle ←
        if (← is .LeftCurly) then do
          let b ← parser_body fuel
          pure ((none : Option Expr), some b)
        else do
          let e ← parser_expr fuel
          pure (some e, (none : Option (List Stmt)))
      must_stmt_end
      let case := MatchCase.mk cond_list handle.2 handle.1 false
      let rest ← matchArmsLoop fuel subject
      pure (case :: rest)

/-- Condition loop of a subject-carrying match arm: assign-precedence
expressions that stop at `|`. -/
def matchCondLoop : Nat → PM (List Expr)
  | 0 => fun _ => .oof
  | fuel+1 => do
    let expr ← parser_precedence_expr fuel .Assign .Or
    if (← consume .Or) then do
      let rest ← matchCondLoop fuel
      pure (expr :: rest)
    else pure [expr]

/-- Translation of `parser_go_expr`: `go call`, lowered to `MacroCoAsync`. -/
def parser_go_expr : Nat → PM Expr
  | 0 => fun _ => .oof
  | fuel+1 => do
    let _ ← must .Go
    let call_expr ← parser_expr fuel
    match call_expr.node with
    | .Call call => do
      let expr ← expr_new
      let closure_fn ← coroutine_fn_closure call_expr
      let closure_fn_void ← coroutine_fn_void_closure call_expr
      pure (expr.setNode (.MacroCoAsync (MacroCoAsyncExpr.mk call closure_fn
        closure_fn_void none (Ty.new .Void))))
    | _ =>
      throwSyn call_expr.start call_expr.end_ "go expr must be call"

/-- Translation of `parser_precedence_expr`: prefix dispatch, then the
infix climbing loop. -/
def parser_precedence_expr : Nat → SyntaxPrecedence → TokenType → PM Expr
  | 0, _, _ => fun _ => .oof
  | fuel+1, precedence, exclude => do
    let pk ← peek
    let rule := find_rule pk.token_type
    match rule.prefixK with
    | none =>
      throwSyn pk.start pk.end_ ("<expr> expected, found '" ++ pk.literal ++ "'")
    | some prefix_fn => do
      let expr ← runPrefix fuel prefix_fn
      let token_type ← parser_infix_token fuel expr
      if exclude ≠ .Eof ∧ token_type == exclude then pure expr
      else precedenceLoop fuel expr precedence exclude token_type

/-- Climbing loop of `parser_precedence_expr`; a token whose rule has the
required precedence but no infix parser hits the source's
`panic!("invalid infix expression")`. -/
def precedenceLoop : Nat → Expr → SyntaxPrecedence → TokenType → TokenType → PM Expr
  | 0, _, _, _, _ => fun _ => .oof
  | fuel+1, expr, precedence, exclude, token_type => do
    let infix_rule := find_rule token_type
    if infix_rule.infix_precedence.val ≥ precedence.val then
      match infix_rule.infixK with
      | none => panicP "invalid infix expression"
      | some infix_fn => do
        let expr1 ← runInfix fuel infix_fn expr
        let token_type1 ← parser_infix_token fuel expr1
        if exclude ≠ .Eof ∧ token_type1 == exclude then pure expr1
        else precedenceLoop fuel expr1 precedence exclude token_type1
    else pure expr

/-- Dispatch of the prefix slots of the rule table (the source stores
function pointers). -/
def runPrefix : Nat → PrefixK → PM Expr
  | 0, _ => fun _ => .oof
  | fuel+1, k =>
    match k with
    | .leftParenExpr => parser_left_paren_expr fuel
    | .vecNew => parser_vec_new fuel
    | .leftCurlyExpr => parser_left_curly_expr fuel
    | .macroCall => parser_macro_call fuel
    | .unary => parser_unary fuel
    | .literal => parser_literal
    | .matchIsExpr => parser_match_is_expr fuel
    | .identExpr => parser_ident_expr

/-- Dispatch of the infix slots of the rule table. -/
def runInfix : Nat → InfixK → Expr → PM Expr
  | 0, _, _ => fun _ => .oof
  | fuel+1, k, left =>
    match k with
    | .callExpr => parser_call_expr fuel left
    | .accessExpr => parser_access fuel left
    | .binaryExpr => parser_binary fuel left
    | .typeArgsExpr => parser_type_args_expr fuel left
    | .selectExpr => parser_select left
    | .asExpr => parser_as_expr fuel left
    | .isExpr => parser_is_expr fuel left
    | .catchExpr => parser_catch_expr fuel left

/-- Translation of `parser_expr_with_precedence`. -/
def parser_expr_with_precedence : Nat → PM Expr
  | 0 => fun _ => .oof
  | fuel+1 => parser_precedence_expr fuel .Assign .Unknown

/-- Translation of `parser_struct_new_expr`. -/
def parser_struct_new_expr : Nat → PM Expr
  | 0 => fun _ => .oof
  | fuel+1 => do
    let t ← parser_type fuel
    parser_struct_new fuel t

/-- Translation of `parser_expr`: struct-literal detection first, then the
keyword-prefixed expression forms, then the precedence engine. -/
def parser_expr : Nat → PM Expr
  | 0 => fun _ => .oof
  | fuel+1 => do
    if (← parser_is_struct_new_expr) then parser_struct_new_expr fuel
    else if (← is .Go) then parser_go_expr fuel
    else if (← is .Match) then parser_match_expr fuel
    else if (← is .Fn) then parser_fndef_expr fuel
    else if (← is .New) then parser_new_expr fuel
    else parser_expr_with_precedence fuel

/-- Translation of `parser_body`: a braced statement list with per-statement
error recovery at brace level 1. -/
def parser_body : Nat → PM (List Stmt)
  | 0 => fun _ => .oof
  | fuel+1 => do
    let _ ← must .LeftCurly
    let stmt_list ← bodyLoop fuel
    let _ ← must .RightCurly
    pure stmt_list

/-- Statement loop of `parser_body`. -/
def bodyLoop : Nat → PM (List Stmt)
  | 0 => fun _ => .oof
  | fuel+1 => do
    if !(← is .RightCurly) && !(← is .Eof) then
      match (← attemptE (parser_stmt fuel)) with
      | .ok stmt => do
        let rest ← bodyLoop fuel
        pure (stmt :: rest)
      | .error e => do
        pushErr ⟨e.start, e.end_, e.message⟩
        let _ ← synchronize 1
        bodyLoop fuel
    else pure []

/-- Translation of `parser_if_stmt`. -/
def parser_if_stmt : Nat → PM Stmt
  | 0 => fun _ => .oof
  | fuel+1 => do
    let stmt ← stmt_new
    let _ ← must .If
    let condition ← parser_expr_with_precedence fuel
    let consequent ← parser_body fuel
    let alternate ←
      if (← consume .Else) then
        if (← is .If) then parser_else_if fuel
        else parser_body fuel
      else pure []
    pure (stmt.setNode (.If condition consequent
      (if alternate.isEmpty then none else some alternate)))

/-- Translation of `parser_else_if`. -/
def parser_else_if : Nat → PM (List Stmt)
  | 0 => fun _ => .oof
  | fuel+1 => do
    let s ← parser_if_stmt fuel
    pure [s]

/-- Translation of `parser_for_stmt`: C-style, iterator or conditional
loop, discriminated by the semicolon scan. -/
def parser_for_stmt : Nat → PM Stmt
  | 0 => fun _ => .oof
  | fuel+1 => do
    let _ ← advance
    let stmt ← stmt_new
    if (← is_for_tradition_stmt) then do
      let init ← parser_stmt fuel
      let _ ← must .StmtEof
      let cond ← parser_expr_with_precedence fuel
      let _ ← must .StmtEof
      let update ← parser_stmt fuel
      let body ← parser_body fuel
      pure (stmt.setNode (.ForTradition init cond update body))
    else if (← is .Ident) && ((← next_is 1 .Comma) || (← next_is 1 .In)) then do
      let first_ident ← must .Ident
      let first := VarDeclExpr.mk (Ty.new .Unknown) first_ident.literal
        first_ident.start first_ident.end_ false none
      let second ←
        if (← consume .Comma) then do
          let second_ident ← must .Ident
          pure (some (VarDeclExpr.mk (Ty.new .Unknown) second_ident.literal
            second_ident.start second_ident.end_ false none))
        else pure none
      let _ ← must .In
      let iterate ← parser_precedence_expr fuel .TypeCast .Unknown
      let body ← parser_body fuel
      pure (stmt.setNode (.ForIterator iterate first second body))
    else do
      let condition ← parser_expr_with_precedence fuel
      let body ← parser_body fuel
      pure (stmt.setNode (.ForCond condition body))

/-- Translation of `parser_assign`: plain assignment, or a compound-assign
desugared into `left = left op rhs`. -/
def parser_assign : Nat → Expr → PM Stmt
  | 0, _ => fun _ => .oof
  | fuel+1, left => do
    let stmt ← stmt_new
    if (← consume .Equal) then do
      let right ← parser_expr fuel
      pure (stmt.setNode (.Assign left right))
    else do
      let t ← advance
      if !t.is_complex_assign then
        throwSyn t.start t.end_
          ("assign=" ++ tokenTypeStr t.token_type ++ " token exception")
      else do
        let right0 ← expr_new
        let rhs ← parser_expr_with_precedence fuel
        let right := right0.setNode (.Binary (token_to_expr_op t.token_type)
          left rhs)
        pure (stmt.setNode (.Assign left right))

/-- Translation of `parser_expr_begin_stmt`: lift calls and catches to
statements, otherwise require an assignment. -/
def parser_expr_begin_stmt : Nat → PM Stmt
  | 0 => fun _ => .oof
  | fuel+1 => do
    let left ← parser_expr fuel
    match left.node with
    | .Call call => do
      if (← is .Equal) then do
        let pk ← peek
        throwSyn pk.start pk.end_ "call expr cannot assign"
      else do
        let stmt ← stmt_new
        pure (stmt.setNode (.Call call))
    | .Catch try_expr catch_err catch_body => do
      if (← is .Equal) || (← is .Catch) then do
        let pk ← peek
        throwSyn pk.start pk.end_ "catch expr cannot assign or immediately next catch"
      else do
        let stmt ← stmt_new
        pure (stmt.setNode (.Catch try_expr catch_err catch_body))
    | _ => do
      if (← is_stmt_eof) then do
        let pk ← peek
        throwSyn pk.start pk.end_ "expr incompleteness"
      else parser_assign fuel left

/-- Translation of `parser_break_stmt`. -/
def parser_break_stmt : Nat → PM Stmt
  | 0 => fun _ => .oof
  | fuel+1 => do
    let stmt ← stmt_new
    let _ ← must .Break
    let expr ←
      if !(← is_stmt_eof) && !(← is .RightCurly) then do
        let e ← parser_expr fuel
        pure (some e)
      else pure none
    pure (stmt.setNode (.Break expr))

/-- Translation of `parser_return_stmt`. -/
def parser_return_stmt : Nat → PM Stmt
  | 0 => fun _ => .oof
  | fuel+1 => do
    let stmt ← stmt_new
    let _ ← advance
    let expr ←
      if !(← is_stmt_eof) && !(← is .RightCurly) then do
        let e ← parser_expr fuel
        pure (some e)
      else pure none
    pure (stmt.setNode (.Return expr))

/-- Translation of `parser_tuple_destr`: a parenthesised, possibly nested
list of assignable expressions. -/
def parser_tuple_destr : Nat → PM TupleDestrExpr
  | 0 => fun _ => .oof
  | fuel+1 => do
    let _ ← must .LeftParen
    let elements ← tupleDestrLoop fuel
    let _ ← must .RightParen
    pure (TupleDestrExpr.mk elements)

/-- Element loop of `parser_tuple_destr`. -/
def tupleDestrLoop : Nat → PM (List Expr)
  | 0 => fun _ => .oof
  | fuel+1 => do
    let element ←
      if (← is .LeftParen) then do
        let expr ← expr_new
        let inner ← parser_tuple_destr fuel
        pure (expr.setNode (.TupleDestr inner.elements))
      else do
        let expr ← parser_expr fuel
        if !expr.node.can_assign then do
          let pk ← peek
          throwSyn pk.start pk.end_ "tuple destr src operand assign failed"
        else pure expr
    if (← consume .Comma) then do
      let rest ← tupleDestrLoop fuel
      pure (element :: rest)
    else pure [element]

/-- Translation of `parser_var_tuple_destr`: like `parser_tuple_destr` but
declaring fresh idents. -/
def parser_var_tuple_destr : Nat → PM TupleDestrExpr
  | 0 => fun _ => .oof
  | fuel+1 => do
    let _ ← must .LeftParen
    let elements ← varTupleDestrLoop fuel
    let _ ← must .RightParen
    pure (TupleDestrExpr.mk elements)

/-- Element loop of `parser_var_tuple_destr`. -/
def varTupleDestrLoop : Nat → PM (List Expr)
  | 0 => fun _ => .oof
  | fuel+1 => do
    let element ←
      if (← is .LeftParen) then do
        let expr ← expr_new
        let inner ← parser_var_tuple_destr fuel
        pure (expr.setNode (.TupleDestr inner.elements))
      else do
        let ident ← must .Ident
        let expr ← expr_new
        pure (expr.setNode (.VarDecl ident.literal (Ty.new .Unknown) false none))
    if (← consume .Comma) then do
      let rest ← varTupleDestrLoop fuel
      pure (element :: rest)
    else pure [element]

/-- Translation of `parser_var_begin_stmt`: `var (a, b) = e` or
`var a = e`. -/
def parser_var_begin_stmt : Nat → PM Stmt
  | 0 => fun _ => .oof
  | fuel+1 => do
    let stmt ← stmt_new
    let type_decl ← parser_type fuel
    if (← is .LeftParen) then do
      let tuple_destr ← parser_var_tuple_destr fuel
      let _ ← must .Equal
      let right ← parser_expr fuel
      pure (stmt.setNode (.VarTupleDestr tuple_destr right))
    else do
      let ident ← must .Ident
      let _ ← must .Equal
      let right ← parser_expr fuel
      pure (stmt.setNode (.VarDef (VarDeclExpr.mk type_decl ident.literal
        ident.start ident.end_ false none) right))

/-- Translation of `parser_type_begin_stmt`: `T ident = e`, tuple
destructuring disallowed. -/
def parser_type_begin_stmt : Nat → PM Stmt
  | 0 => fun _ => .oof
  | fuel+1 => do
    let stmt ← stmt_new
    let type_decl ← parser_type fuel
    let ident ← must .Ident
    if (← is .LeftParen) then do
      let pk ← peek
      throwSyn pk.start pk.end_ "type begin stmt not support tuple destr"
    else do
      let _ ← must .Equal
      let right ← parser_expr fuel
      pure (stmt.setNode (.VarDef (VarDeclExpr.mk type_decl ident.literal
        ident.start ident.end_ false none) right))

/-- Impl-type generic argument loop of `parser_fndef_stmt`; each argument
must resolve to a `Param`, enforced by the source's `assert!`. -/
def implArgsLoop : Nat → PM (List Ty)
  | 0 => fun _ => .oof
  | fuel+1 => do
    let param_type ← parser_single_type fuel
    match param_type.kind with
    | .Param _ => do
      if (← consume .Colon) then do
        let _ ← constraintOrLoop fuel
        pure ()
      else pure ()
      if (← consume .Comma) then do
        let rest ← implArgsLoop fuel
        pure (param_type :: rest)
      else pure [param_type]
    | _ => panicP "assertion failed: matches TypeKind::Param"

/-- Translation of `parser_fndef_stmt`: optional impl-type prefix,
optional generic parameters, parameters, return type and body or
template declaration. -/
def parser_fndef_stmt : Nat → AstFnDef → PM Stmt
  | 0, _ => fun _ => .oof
  | fuel+1, fndef0 => do
    let stmt ← stmt_new
    let pk ← peek
    let fndefA := fndef0.setStart pk.start
    let _ ← must .Fn
    let impl_res ← is_impl_fn
    let (fndefB, is_impl) ←
      if impl_res then do
        let s ← getSt
        let temp_current := s.current
        let first_token ← advance
        let fndef1 ←
          if (← consume .LeftAngle) then do
            tptClear
            let params ← genericsParamsLoop fuel
            let _ ← must .RightAngle
            pure (fndefA.setGenericsParams (some params))
          else pure fndefA
        restoreCur temp_current
        let impl_type ←
          if first_token.token_type == .Ident then do
            let impl_ident_token ← must .Ident
            let t0 := (Ty.default.setKind (.Alias (TypeAlias.mk
              first_token.literal none none))).setImplIdent
              (some impl_ident_token.literal)
            if fndef1.generics_params.isSome then do
              let _ ← must .LeftAngle
              let args ← implArgsLoop fuel
              let _ ← must .RightAngle
              match t0.kind with
              | .Alias a => pure (t0.setKind (.Alias (a.setArgs (some args))))
              | _ => pure t0
            else pure t0
          else do
            let t ← parser_single_type fuel
            pure (t.setImplIdent (some first_token.literal))
        if !is_impl_type impl_type.kind then do
          let pk2 ← peek
          throwSyn pk2.start pk2.end_
            ("type '" ++ typeKindStr impl_type.kind ++ "' cannot impl fn")
        else do
          let fndef2 := fndef1.setImplType impl_type
          let _ ← must .Dot
          pure (fndef2, true)
      else pure (fndefA, false)
    let ident ← must .Ident
    let fndefC := (fndefB.setSymbolName ident.literal).setFnName
      (some ident.literal)
    let fndefD ←
      if !is_impl then
        if (← consume .LeftAngle) then do
          tptClear
          let params ← genericsParamsLoop fuel
          let _ ← must .RightAngle
          pure (fndefC.setGenericsParams (some params))
        else pure fndefC
      else pure fndefC
    let (params, rest) ← parser_params fuel
    let fndefE := (fndefD.setParams params).setRestParam rest
    let fndefF ←
      if (← consume .Colon) then do
        let rt ← parser_type fuel
        pure (fndefE.setReturnType rt)
      else do
        let pk3 ← peek
        pure (fndefE.setReturnType (((Ty.new .Void).setStart pk3.start).setEnd
          pk3.end_))
    if (← is_stmt_eof) then
      pure (stmt.setNode (.FnDef (fndefF.setIsTpl true)))
    else do
      let body ← parser_body fuel
      let fndefG := fndefF.setBody body
      let endv ←
        match (← prevPM) with
        | some prev_token => pure prev_token.end_
        | none => do
          let pk4 ← peek
          pure pk4.end_
      tptClear
      pure (stmt.setNode (.FnDef (fndefG.setEnd endv)))

/-- Label loop of `parser_fn_label`: `#linkid name-or-string` and
`#local`. -/
def fnLabelLoop : Nat → AstFnDef → PM AstFnDef
  | 0, _ => fun _ => .oof
  | fuel+1, fndef => do
    if (← is .FnLabel) then do
      let token ← must .FnLabel
      if token.literal == "linkid" then do
        let fndef1 ←
          if (← is .Ident) then do
            let linkto ← must .Ident
            pure (fndef.setLinkid (some linkto.literal))
          else do
            let literal ← must .StringLiteral
            pure (fndef.setLinkid (some literal.literal))
        fnLabelLoop fuel fndef1
      else if token.literal == "local" then
        fnLabelLoop fuel (fndef.setIsPrivate true)
      else
        throwSyn token.start token.end_
          ("unknown fn label '" ++ token.literal ++ "'")
    else pure fndef

/-- Translation of `parser_fn_label`. -/
def parser_fn_label : Nat → PM Stmt
  | 0 => fun _ => .oof
  | fuel+1 => do
    let fndef ← fnLabelLoop fuel AstFnDef.default
    let _ ← must .StmtEof
    parser_fndef_stmt fuel fndef

/-- Translation of `parser_let_stmt`: `let` wraps only an `as` expression. -/
def parser_let_stmt : Nat → PM Stmt
  | 0 => fun _ => .oof
  | fuel+1 => do
    let stmt ← stmt_new
    let _ ← must .Let
    let expr ← parser_expr fuel
    match expr.node with
    | .As _ _ => pure (stmt.setNode (.Let expr))
    | _ => throwSyn expr.start expr.end_ "must be 'as' expr"

/-- Translation of `parser_throw_stmt`. -/
def parser_throw_stmt : Nat → PM Stmt
  | 0 => fun _ => .oof
  | fuel+1 => do
    let stmt ← stmt_new
    let _ ← must .Throw
    let e ← parser_expr fuel
    pure (stmt.setNode (.Throw e))

/-- Translation of `parser_left_paren_begin_stmt`: tentatively parse one
expression after `(`; a following comma selects tuple destructuring. -/
def parser_left_paren_begin_stmt : Nat → PM Stmt
  | 0 => fun _ => .oof
  | fuel+1 => do
    let s ← getSt
    let current_pos := s.current
    let _ ← must .LeftParen
    let _ ← parser_expr fuel
    let is_comma ← is .Comma
    restoreCur current_pos
    if is_comma then do
      let stmt ← stmt_new
      let left0 ← expr_new
      let td ← parser_tuple_destr fuel
      let left := left0.setNode (.TupleDestr td.elements)
      let _ ← must .Equal
      let right ← parser_expr fuel
      pure (stmt.setNode (.Assign left right))
    else parser_expr_begin_stmt fuel

/-- Translation of `parser_stmt`: dispatch on the leading token, then the
statement terminator. -/
def parser_stmt : Nat → PM Stmt
  | 0 => fun _ => .oof
  | fuel+1 => do
    let pk ← peek
    let stmt ←
      match pk.token_type with
      | .Var => parser_var_begin_stmt fuel
      | .LeftParen => parser_left_paren_begin_stmt fuel
      | .Throw => parser_throw_stmt fuel
      | .Let => parser_let_stmt fuel
      | .FnLabel => parser_fn_label fuel
      | .Ident => parser_expr_begin_stmt fuel
      | .Fn => parser_fndef_stmt fuel AstFnDef.default
      | .If => parser_if_stmt fuel
      | .For => parser_for_stmt fuel
      | .Return => parser_return_stmt fuel
      | .Import => parser_import_stmt
      | .Type_ => parser_type_alias_stmt fuel
      | .Continue => parser_continue_stmt
      | .Break => parser_break_stmt fuel
      | .Go => do
        let e ← parser_go_expr fuel
        fake_new e
      | .Match => do
        let e ← parser_match_expr fuel
        fake_new e
      | .MacroIdent => do
        let e ← parser_expr_with_precedence fuel
        fake_new e
      | _ => do
        if (← is_type_begin_stmt) then parser_type_begin_stmt fuel
        else
          throwSyn pk.start pk.end_
            ("statement cannot start with '" ++ pk.literal ++ "'")
    must_stmt_end
    pure stmt

/-- Driver loop of `parser()`: statements until `Eof`, catching statement
errors, re-synchronising at brace level 0 and force-advancing when no
sync point was found. -/
def parser_loop : Nat → PM (List Stmt)
  | 0 => fun _ => .oof
  | fuel+1 => do
    if !(← is .Eof) then
      match (← attemptE (parser_stmt fuel)) with
      | .ok stmt => do
        let rest ← parser_loop fuel
        pure (stmt :: rest)
      | .error e => do
        pushErr ⟨e.start, e.end_, e.message⟩
        let found ← synchronize 0
        if !found then do
          let _ ← advance
          parser_loop fuel
        else parser_loop fuel
    else pure []

end

/-- The `Syntax` struct: the parser instance owning the token vector, the
cursor, the diagnostic list and the auxiliary flags. -/
structure Syntax where
  tokens : List Token
  current : Nat
  errors : List AnalyzerError
  type_params_table : List String
  match_cond : Bool
  match_subject : Bool
  deriving DecidableEq, Repr

/-- Translation of `Syntax::new(tokens)`. -/
def Syntax.new (tokens : List Token) : Syntax :=
  ⟨tokens, 0, [], [], false, false⟩

/-- Result of the `parser()` method: the statement list and diagnostic list
it returns together with the updated instance, or a Rust abort, or fuel
exhaustion of the embedding (covering the source's non-terminating runs). -/
inductive ParseOut where
  | done (stmts : List Stmt) (errs : List AnalyzerError) (inst : Syntax)
  | panicked (msg : String)
  | oof

/-- Translation of the `parser()` method: reset the cursor (the error list
is not reset), run the driver loop, and return the statement list together
with the accumulated `self.errors`. -/
def Syntax.parser (fuel : Nat) (self : Syntax) : ParseOut :=
  match parser_loop fuel ⟨self.tokens, 0, self.type_params_table,
      self.match_cond, self.match_subject⟩ with
  | .ok stmts sf es =>
    .done stmts (self.errors ++ es)
      ⟨self.tokens, sf.current, self.errors ++ es, sf.type_params_table,
        sf.match_cond, sf.match_subject⟩
  | .fail _ _ _ => .panicked "unreachable: the driver catches statement errors"
  | .panicked msg => .panicked msg
  | .oof => .oof

/-! Generic evaluation lemmas for the parser monad, used by the symbolic
proofs below. -/

theorem bind_apply {α β : Type} (m : PM α) (f : α → PM β) (s : PSt) :
    (m >>= f) s =
      match m s with
      | .ok a s' es =>
        (match f a s' with
         | .ok b s'' es' => .ok b s'' (es ++ es')
         | .fail e s'' es' => .fail e s'' (es ++ es')
         | .panicked msg => .panicked msg
         | .oof => .oof)
      | .fail e s' es => .fail e s' es
      | .panicked msg => .panicked msg
      | .oof => .oof := rfl

theorem pure_apply {α : Type} (a : α) (s : PSt) :
    (pure a : PM α) s = .ok a s [] := rfl

theorem attemptE_apply {α : Type} (m : PM α) (s : PSt) :
    attemptE m s =
      match m s with
      | .ok a s' es => .ok (.ok a) s' es
      | .fail e s' es => .ok (.error e) s' es
      | .panicked msg => .panicked msg
      | .oof => .oof := rfl

/-- A shorthand for expression nodes whose two type slots are still the
defaults, as every node leaves the parser. -/
def exprAt (start : Nat) (end_ : Nat) (node : AstNode) : Expr :=
  Expr.mk start end_ Ty.default Ty.default node

/-! Concrete token streams used by the claims below.  Every stream is
terminated by exactly one `Eof`, as the lexer contract requires. -/

/-- The statement `+` alone: tokens `Plus, Eof`. -/
def plusEofTokens : List Token :=
  [⟨.Plus, "+", 0, 1, 1⟩, ⟨.Eof, "", 1, 1, 1⟩]

/-- The statement `a ! b`: tokens `Ident, Not, Ident, Eof`. -/
def bangTokens : List Token :=
  [⟨.Ident, "a", 0, 1, 1⟩, ⟨.Not, "!", 2, 3, 1⟩, ⟨.Ident, "b", 4, 5, 1⟩,
   ⟨.Eof, "", 5, 5, 1⟩]

/-- The statement `try` alone: tokens `Try, Eof`. -/
def tryEofTokens : List Token :=
  [⟨.Try, "try", 0, 3, 1⟩, ⟨.Eof, "", 3, 3, 1⟩]

/-- C2: the spec claims `parser()` returns normally on every
`Eof`-terminated token stream, turning every syntactic failure into a
diagnostic, and that no input reaches a panic.  The code aborts on the
well-formed streams `+` (the recovery advance runs past `Eof` and `peek`
panics) and `a ! b` (the `Not` rule has unary precedence but no infix
parser, reaching `panic!("invalid infix expression")`). -/
theorem parser_abort_reachable :
    Syntax.parser 50 (Syntax.new plusEofTokens) =
      .panicked "syntax::peek: current index out of range" ∧
    Syntax.parser 50 (Syntax.new bangTokens) =
      .panicked "invalid infix expression" := by
  constructor <;> rfl

/-- The state of a fresh parse of `try` followed by `Eof`. -/
def tryPSt : PSt := ⟨tryEofTokens, 0, [], false, false⟩

/-- One driver iteration on the `try` stream consumes nothing: the
statement dispatcher rejects `try` without advancing, and `synchronize`
reports the very same `try` keyword as a sync point, also without
advancing, so the loop re-enters the identical state and only the fuel of
the embedding decreases. -/
theorem tryLoopOof : ∀ n, parser_loop n tryPSt = .oof := by
  intro n
  induction n with
  | zero => rfl
  | succ m ih =>
    cases m with
    | zero => rfl
    | succ k =>
      have e1 : parser_stmt (k+1) tryPSt =
          .fail ⟨0, 3, "statement cannot start with 'try'"⟩ tryPSt [] := rfl
      have e2 : synchronize 0 tryPSt = .ok true tryPSt [] := rfl
      have e3 : is .Eof tryPSt = .ok false tryPSt [] := rfl
      obtain ⟨m, hm⟩ : ∃ m, k + 1 = m := ⟨k + 1, rfl⟩
      rw [hm] at ih e1 ⊢
      simp only [parser_loop, bind_apply, pure_apply, attemptE_apply, pushErr,
        e1, e2, e3, Bool.not_false, Bool.not_true, if_true, if_false]
      simp [ih]

/-- C3: the spec claims the driver terminates within `|tokens|` iterations
on every input.  On the two-token stream `try, Eof` the driver loops
forever — `parser_stmt` fails without consuming a token and `synchronize`
returns found at the `try` keyword without consuming either — so for every
fuel the embedded run exhausts its fuel instead of completing. -/
theorem parser_driver_nonterminating :
    ∀ fuel, Syntax.parser fuel (Syntax.new tryEofTokens) = .oof := by
  intro fuel
  show (match parser_loop fuel tryPSt with
    | .ok stmts sf es =>
      ParseOut.done stmts ((Syntax.new tryEofTokens).errors ++ es)
        ⟨(Syntax.new tryEofTokens).tokens, sf.current,
          (Syntax.new tryEofTokens).errors ++ es, sf.type_params_table,
          sf.match_cond, sf.match_subject⟩
    | .fail _ _ _ =>
      ParseOut.panicked "unreachable: the driver catches statement errors"
    | .panicked msg => ParseOut.panicked msg
    | .oof => ParseOut.oof) = ParseOut.oof
  rw [tryLoopOof fuel]

/-- The statement `+` followed by `;`: the driver reports one diagnostic
and recovers. -/
def plusSemiTokens : List Token :=
  [⟨.Plus, "+", 0, 1, 1⟩, ⟨.StmtEof, ";", 1, 2, 1⟩, ⟨.Eof, "", 2, 2, 1⟩]

/-- The diagnostic that parse produces. -/
def plusErr : AnalyzerError := ⟨0, 1, "statement cannot start with '+'"⟩

/-- The parser instance as `parser()` leaves it after the first call on
`plusSemiTokens`. -/
def plusInst1 : Syntax := ⟨plusSemiTokens, 2, [plusErr], [], false, false⟩

/-- The instance after the second call: the error list was never reset, so
the diagnostic now appears twice. -/
def plusInst2 : Syntax := ⟨plusSemiTokens, 2, [plusErr, plusErr], [], false, false⟩

/-- C6 counterexample: the claim includes the case of calling `parser()`
twice on one instance and still promises identical diagnostic lists; in
fact the second call returns the first call's diagnostics concatenated
with the fresh run's, so the lists differ whenever the first run reported
anything. -/
theorem parser_second_call_diagnostics_differ :
    Syntax.parser 50 (Syntax.new plusSemiTokens) =
      .done [] [plusErr] plusInst1 ∧
    Syntax.parser 50 plusInst1 = .done [] [plusErr, plusErr] plusInst2 ∧
    [plusErr, plusErr] ≠ [plusErr] := by
  refine ⟨rfl, rfl, by decide⟩

/-- C6 amended: parsing is a pure function of the token vector and the
auxiliary parser state.  A fresh instance always starts from the clean
auxiliary state, so fresh runs on equal token vectors are identical; and
when a first call completes leaving the auxiliary state clean, a second
call on the same instance reproduces the identical statement list while
returning the previous diagnostics concatenated with the fresh run's —
identical diagnostic lists only when the first run reported nothing. -/
theorem parser_rerun_appends_diagnostics (fuel : Nat) (toks : List Token)
    (stmts : List Stmt) (errs : List AnalyzerError) (inst1 : Syntax)
    (h : Syntax.parser fuel (Syntax.new toks) = .done stmts errs inst1)
    (hc : inst1.match_cond = false) (hs : inst1.match_subject = false)
    (ht : inst1.type_params_table = []) :
    ∃ inst2 : Syntax,
      Syntax.parser fuel inst1 = .done stmts (errs ++ errs) inst2 := by
  simp only [Syntax.parser, Syntax.new] at h ⊢
  cases hpl : parser_loop fuel ⟨toks, 0, [], false, false⟩ with
  | ok s sf es =>
    rw [hpl] at h
    simp only at h
    cases h
    simp only at hc hs ht ⊢
    rw [hc, hs, ht]
    simp only [hpl]
    exact ⟨⟨toks, sf.current, es ++ es, sf.type_params_table, sf.match_cond,
      sf.match_subject⟩, by simp⟩
  | fail e s' es => rw [hpl] at h; simp at h
  | panicked msg => rw [hpl] at h; simp at h
  | oof => rw [hpl] at h; simp at h

/-- C6 amended, witness: the rerun theorem instantiated on the `+ ;`
stream, where the first call reports one diagnostic. -/
theorem parser_rerun_appends_diagnostics_witness :
    ∃ inst2 : Syntax,
      Syntax.parser 50 plusInst1 = .done [] ([plusErr] ++ [plusErr]) inst2 :=
  parser_rerun_appends_diagnostics 50 plusSemiTokens [] [plusErr] plusInst1
    (by rfl) rfl rfl rfl

/-- The statement `match { is int => 1 }`: a match expression without a
subject whose single arm condition is a bare `is int`. -/
def matchIsTokens : List Token :=
  [⟨.Match, "match", 0, 5, 1⟩, ⟨.LeftCurly, "\x7b", 6, 7, 1⟩,
   ⟨.Is, "is", 8, 10, 1⟩, ⟨.Int, "int", 11, 14, 1⟩,
   ⟨.RightArrow, "=>", 15, 17, 1⟩, ⟨.IntLiteral, "1", 18, 19, 1⟩,
   ⟨.RightCurly, "\x7d", 20, 21, 1⟩, ⟨.Eof, "", 21, 21, 1⟩]

/-- The statement the parse produces for `matchIsTokens`: a subject-less
match whose arm condition is the `MatchIs int` node — accepted, not
rejected. -/
def matchIsStmt : Stmt :=
  Stmt.mk 21 21 (.Fake (exprAt 6 7 (.Match none
    [MatchCase.mk
      [exprAt 8 10 (.MatchIs
        (Ty.mk .Int 11 14 .Undo (some "int") (some "int") .Int))]
      none (some (exprAt 18 19 (.Literal .Int "1"))) false])))

/-- C4 counterexample: the claim says a bare `is T` arm condition of a
subject-less match is rejected with a syntax error; the code accepts it —
the guard in `parser_match_is_expr` tests only the `match_cond` flag,
which is set for arm conditions with and without a subject — producing a
clean parse with zero diagnostics. -/
theorem match_no_subject_accepts_bare_is :
    Syntax.parser 50 (Syntax.new matchIsTokens) =
      .done [matchIsStmt] [] ⟨matchIsTokens, 7, [], [], false, false⟩ := by
  rfl

/-- The statement `x = a - b`. -/
def assignSubTokens : List Token :=
  [⟨.Ident, "x", 0, 1, 1⟩, ⟨.Equal, "=", 2, 3, 1⟩, ⟨.Ident, "a", 4, 5, 1⟩,
   ⟨.Minus, "-", 6, 7, 1⟩, ⟨.Ident, "b", 8, 9, 1⟩, ⟨.Eof, "", 9, 9, 1⟩]

/-- The left operand `a` of the parsed subtraction. -/
def subLeftOperand : Expr := exprAt 4 5 (.Ident "a")

/-- The parsed subtraction `a - b`: its span is just the `-` token. -/
def subBinaryExpr : Expr :=
  exprAt 6 7 (.Binary .Sub subLeftOperand (exprAt 8 9 (.Ident "b")))

/-- C5 counterexample: the claim says every parent span contains its
children's spans.  Parsing `x = a - b` succeeds, but the `Binary` node
spans only its operator token `-` (bytes 6–7), while its left child `a`
spans bytes 4–5 — the child starts before the parent. -/
theorem binary_span_not_nested :
    Syntax.parser 50 (Syntax.new assignSubTokens) =
      .done [Stmt.mk 2 3 (.Assign (exprAt 0 1 (.Ident "x")) subBinaryExpr)]
        [] ⟨assignSubTokens, 5, [], [], false, false⟩ ∧
    ¬ (subBinaryExpr.start ≤ subLeftOperand.start) := by
  exact ⟨rfl, by decide⟩

/-- The expression `a - b - c` over arbitrary identifier names. -/
def subChainTokens (a b c : String) : List Token :=
  [⟨.Ident, a, 0, 1, 1⟩, ⟨.Minus, "-", 2, 3, 1⟩, ⟨.Ident, b, 4, 5, 1⟩,
   ⟨.Minus, "-", 6, 7, 1⟩, ⟨.Ident, c, 8, 9, 1⟩, ⟨.Eof, "", 9, 9, 1⟩]

/-- C7: subtraction is left-associative — for any identifier operands,
`a - b - c` parses as `Binary(Sub, Binary(Sub, a, b), c)`, because
`parser_binary` parses its right operand one precedence level above the
operator's own level. -/
theorem sub_left_associative (a b c : String) :
    parser_expr 20 ⟨subChainTokens a b c, 0, [], false, false⟩ =
      .ok (exprAt 6 7 (.Binary .Sub
            (exprAt 2 3 (.Binary .Sub (exprAt 0 1 (.Ident a))
              (exprAt 4 5 (.Ident b))))
            (exprAt 8 9 (.Ident c))))
        ⟨subChainTokens a b c, 5, [], false, false⟩ [] := by
  rfl

end NLS

namespace NLS

/-- C10: `must(k)` always advances the cursor by exactly one token; on a
mismatch it fails with the head token's span and the message
`expected '<kind>'`, the mismatching token having been consumed. -/
theorem must_advances_spec (st : PSt) (expect : TokenType) (tok : Token)
    (h : st.tokens.get? st.current = some tok) :
    must expect st =
      if tok.token_type = expect then
        .ok tok { st with current := st.current + 1 } []
      else
        .fail ⟨tok.start, tok.end_, "expected '" ++ tokenTypeStr expect ++ "'"⟩
          { st with current := st.current + 1 } [] := by
  simp only [must, bind_apply, pure_apply, peek, advance, throwSyn, h]
  by_cases hc : tok.token_type = expect
  · simp [hc, pure_apply, throwSyn]
  · simp [hc, pure_apply, throwSyn]

/-- C10, witness: `must Ident` on the `+`-headed stream consumes the `+`
and fails with its span and `expected 'ident'`. -/
theorem must_advances_spec_witness :
    must .Ident ⟨plusEofTokens, 0, [], false, false⟩ =
      .fail ⟨0, 1, "expected 'ident'"⟩ ⟨plusEofTokens, 1, [], false, false⟩ [] := by
  have h := must_advances_spec ⟨plusEofTokens, 0, [], false, false⟩ .Ident
    ⟨.Plus, "+", 0, 1, 1⟩ rfl
  simpa using h

end NLS

namespace NLS

/-- C9: in `arr<T, N>` the length literal must parse as an unsigned
integer (`array length must be a valid integer`), must be positive
(`array length must be greater than 0`), and otherwise the result is
`Arr(N, T)` with `N > 0`. -/
theorem arr_type_length_spec (g : Nat) (st : PSt) (arrTok laTok : Token)
    (elemT : Ty) (st3 : PSt) (es : List AnalyzerError) (caTok lenTok : Token)
    (h0 : st.tokens[st.current]? = some arrTok)
    (h1 : arrTok.token_type = .Arr)
    (h2 : st.tokens[st.current + 1]? = some laTok)
    (h3 : laTok.token_type = .LeftAngle)
    (h4 : parser_type g { st with current := st.current + 2 } = .ok elemT st3 es)
    (h5 : st3.tokens[st3.current]? = some caTok)
    (h6 : caTok.token_type = .Comma)
    (h7 : st3.tokens[st3.current + 1]? = some lenTok)
    (h8 : lenTok.token_type = .IntLiteral) :
    (parse_u64 lenTok.literal = none →
      parser_single_type (g+1) st =
        .fail ⟨lenTok.start, lenTok.end_, "array length must be a valid integer"⟩
          { st3 with current := st3.current + 2 } es) ∧
    (parse_u64 lenTok.literal = some 0 →
      parser_single_type (g+1) st =
        .fail ⟨lenTok.start, lenTok.end_, "array length must be greater than 0"⟩
          { st3 with current := st3.current + 2 } es) ∧
    (∀ (n : Nat) (raTok : Token),
      parse_u64 lenTok.literal = some (n+1) →
      st3.tokens[st3.current + 2]? = some raTok →
      raTok.token_type = .RightAngle →
      parser_single_type (g+1) st =
        .ok (Ty.mk (.Arr (n+1) elemT) arrTok.start raTok.end_ .Undo none none .Unknown)
          { st3 with current := st3.current + 3 } es ∧ 0 < n+1) := by
  refine ⟨?_, ?_, ?_⟩
  · intro hp
    simp [parser_single_type, bind_apply, pure_apply, attemptE_apply,
      consume, is, is_basic_type, tokenIsBasicType, peek, advance, must,
      throwSyn, prevUnwrap, prevPM, panicP,
      h0, h1, h2, h3, h4, h5, h6, h7, h8, hp]
  · intro hp
    simp [parser_single_type, bind_apply, pure_apply, attemptE_apply,
      consume, is, is_basic_type, tokenIsBasicType, peek, advance, must,
      throwSyn, prevUnwrap, prevPM, panicP,
      h0, h1, h2, h3, h4, h5, h6, h7, h8, hp]
  · intro n raTok hp h9 h10
    refine ⟨?_, Nat.succ_pos n⟩
    simp [parser_single_type, bind_apply, pure_apply, attemptE_apply,
      consume, is, is_basic_type, tokenIsBasicType, peek, advance, must,
      throwSyn, prevUnwrap, prevPM, panicP,
      h0, h1, h2, h3, h4, h5, h6, h7, h8, h9, h10, hp]

end NLS

namespace NLS

/-- The synthesised closure of `coroutine_fn_closure`:
`var result = <call>; co_return(&result)` in a zero-parameter void fn. -/
def goClosure (tok2 : Token) (e : Expr) : AstFnDef :=
  AstFnDef.mk "" none [] false none (Ty.new .Void)
    [Stmt.mk tok2.start tok2.end_
       (.VarDef (VarDeclExpr.mk (Ty.new .Unknown) "result" 0 0 false none) e),
     Stmt.mk tok2.start tok2.end_
       (.Call (AstCall.mk Ty.default (Expr.identExpr 0 0 "co_return") []
         [Expr.mk 0 0 Ty.default Ty.default
           (.Unary .La (Expr.identExpr 0 0 "result"))] false))]
    Ty.default false true false none 0 0

/-- The synthesised closure of `coroutine_fn_void_closure`: just the bare
call in a zero-parameter void fn. -/
def goClosureVoid (tok2 : Token) (c : AstCall) : AstFnDef :=
  AstFnDef.mk "" none [] false none (Ty.new .Void)
    [Stmt.mk tok2.start tok2.end_ (.Call c)]
    Ty.default false true false none 0 0

/-- C8: `go expr` succeeds only when `expr` parses to a call (otherwise
`go expr must be call`), and lowers to a `MacroCoAsync` node carrying the
original call, the `var result = call; co_return(&result)` closure, the
bare-call void closure, and no flag expression. -/
theorem go_expr_lowering_spec (g : Nat) (st : PSt) (goTok : Token) (e : Expr)
    (st2 : PSt) (es : List AnalyzerError)
    (h0 : st.tokens[st.current]? = some goTok)
    (h1 : goTok.token_type = .Go)
    (h2 : parser_expr g { st with current := st.current + 1 } = .ok e st2 es) :
    (∀ (c : AstCall) (tok2 : Token), e.node = .Call c →
      st2.tokens[st2.current]? = some tok2 →
      parser_go_expr (g+1) st =
        .ok (exprAt tok2.start tok2.end_ (.MacroCoAsync (MacroCoAsyncExpr.mk c
          (goClosure tok2 e) (goClosureVoid tok2 c) none (Ty.new .Void))))
          st2 es) ∧
    ((∀ c : AstCall, e.node ≠ .Call c) →
      parser_go_expr (g+1) st =
        .fail ⟨e.start, e.end_, "go expr must be call"⟩ st2 es) := by
  constructor
  · intro c tok2 h3 h4
    simp [parser_go_expr, bind_apply, pure_apply, must, peek, advance, is,
      throwSyn, expr_new, stmt_new, coroutine_fn_closure,
      coroutine_fn_void_closure, exprAt, goClosure, goClosureVoid,
      Expr.setNode, Stmt.setNode, AstFnDef.default, AstFnDef.setIsCoAsync,
      AstFnDef.setParams, AstFnDef.setReturnType, AstFnDef.setBody,
      AstFnDef.start, AstFnDef.end_, Expr.identExpr, Expr.default,
      h0, h1, h2, h3, h4]
  · intro hnc
    cases he : e.node
    case Call c => exact absurd he (hnc c)
    all_goals
      simp [parser_go_expr, bind_apply, pure_apply, must, peek, advance,
        is, throwSyn, h0, h1, h2, he]

end NLS

namespace NLS

/-- C1 amended: `<` after an identifier-shaped left expression opens type
arguments iff the tentative scan succeeds; in the single-type path
(`T` then `>`) the decision is `true` with no look at the token after
`>`, and on a failed tentative type parse the cursor is restored and the
decision is `false`. -/
theorem left_angle_is_type_args_spec :
    (∀ (fuel : Nat) (st : PSt) (left : Expr),
      typeArgsLeftShape left = false →
      parser_left_angle_is_type_args (fuel+1) left st = .ok false st []) ∧
    (∀ (g : Nat) (st : PSt) (left : Expr) (tok : Token) (t : Ty) (st1 : PSt)
      (es : List AnalyzerError) (raTok : Token),
      typeArgsLeftShape left = true →
      st.tokens[st.current]? = some tok →
      parser_type g { st with current := st.current + 1 } = .ok t st1 es →
      st1.tokens[st1.current]? = some raTok →
      raTok.token_type = .RightAngle →
      parser_left_angle_is_type_args (g+2) left st =
        .ok true { st1 with current := st.current } es) ∧
    (∀ (g : Nat) (st : PSt) (left : Expr) (tok : Token) (e : SyntaxError)
      (st1 : PSt) (es : List AnalyzerError),
      typeArgsLeftShape left = true →
      st.tokens[st.current]? = some tok →
      parser_type g { st with current := st.current + 1 } = .fail e st1 es →
      parser_left_angle_is_type_args (g+2) left st =
        .ok false { st1 with current := st.current } es) := by
  refine ⟨?_, ?_, ?_⟩
  · intro fuel st left h
    simp [parser_left_angle_is_type_args, bind_apply, pure_apply, getSt, h]
  · intro g st left tok t st1 es raTok h0 h1 h2 h3 h4
    simp [parser_left_angle_is_type_args, latiaBody, bind_apply, pure_apply,
      attemptE_apply, getSt, advance, is, peek, consume, restoreCur, modifySt,
      h0, h1, h2, h3, h4]
  · intro g st left tok e st1 es h0 h1 h2
    simp [parser_left_angle_is_type_args, latiaBody, bind_apply, pure_apply,
      attemptE_apply, getSt, advance, is, peek, consume, restoreCur, modifySt,
      h0, h1, h2]

/-- C5 amended: every node is created by `expr_new`/`stmt_new` spanning
exactly one token (so `start ≤ end_` holds whenever the token's does),
but a `Binary` node keeps only its operator token's span, so child spans
are not nested inside the parent's. -/
theorem node_span_single_token_spec :
    (∀ (st : PSt) (tok : Token),
      st.tokens[st.current]? = some tok →
      expr_new st = .ok (Expr.mk tok.start tok.end_ Ty.default Ty.default .None) st [] ∧
      stmt_new st = .ok (Stmt.mk tok.start tok.end_ .None) st [] ∧
      (tok.start ≤ tok.end_ →
        (Expr.mk tok.start tok.end_ Ty.default Ty.default .None).start ≤
          (Expr.mk tok.start tok.end_ Ty.default Ty.default .None).end_)) ∧
    (∀ (g : Nat) (st : PSt) (left right : Expr) (opTok : Token)
      (np : SyntaxPrecedence) (st2 : PSt) (es : List AnalyzerError),
      st.tokens[st.current]? = some opTok →
      (find_rule opTok.token_type).infix_precedence.next = some np →
      parser_precedence_expr g np .Unknown { st with current := st.current + 1 } =
        .ok right st2 es →
      parser_binary (g+1) left st =
        .ok (Expr.mk opTok.start opTok.end_ Ty.default Ty.default
          (.Binary (token_to_expr_op opTok.token_type) left right)) st2 es) := by
  constructor
  · intro st tok h
    refine ⟨?_, ?_, fun hle => hle⟩
    · simp [expr_new, bind_apply, pure_apply, peek, h]
    · simp [stmt_new, bind_apply, pure_apply, peek, h]
  · intro g st left right opTok np st2 es h0 h1 h2
    simp [parser_binary, bind_apply, pure_apply, expr_new, peek, advance,
      Expr.setNode, h0, h1, h2]

end NLS

namespace NLS

/-- Helper for C4: every arm of a subject-less `match` carries exactly
one condition — the `|`-splitting loop runs only when a subject is
present. -/
theorem match_arms_no_subject_single_cond :
    ∀ (fuel : Nat) (st : PSt) (cases : List MatchCase) (st' : PSt)
      (es : List AnalyzerError),
      matchArmsLoop fuel none st = .ok cases st' es →
      ∀ mc ∈ cases, mc.cond_list.length = 1 := by
  intro fuel
  induction fuel with
  | zero =>
    intro st cases st' es h
    simp [matchArmsLoop] at h
  | succ k ih =>
    intro st cases st' es h
    simp only [matchArmsLoop, bind_apply, pure_apply] at h
    cases hc : consume .RightCurly st with
    | fail e s' es1 => rw [hc] at h; simp at h
    | panicked m => rw [hc] at h; simp at h
    | oof => rw [hc] at h; simp at h
    | ok b stA esA =>
      rw [hc] at h
      cases b with
      | true =>
        simp only [eq_self_iff_true, if_true, pure_apply, List.append_nil,
          Res.ok.injEq] at h
        obtain ⟨hcs, -, -⟩ := h
        intro mc hmc
        rw [← hcs] at hmc
        simp at hmc
      | false =>
        simp only [Bool.false_eq_true, if_false, bind_apply, pure_apply,
          modifySt] at h
        cases hpe : parser_expr k { stA with match_cond := true } with
        | fail e s' es1 => rw [hpe] at h; simp at h
        | panicked m => rw [hpe] at h; simp at h
        | oof => rw [hpe] at h; simp at h
        | ok e st2 es2 =>
          rw [hpe] at h
          simp only [bind_apply, pure_apply, modifySt] at h
          cases hmu : must .RightArrow st2 with
          | fail e2 s' es1 => rw [hmu] at h; simp at h
          | panicked m => rw [hmu] at h; simp at h
          | oof => rw [hmu] at h; simp at h
          | ok t2 st3 es3 =>
            rw [hmu] at h
            simp only [bind_apply, pure_apply, modifySt] at h
            cases hil : is .LeftCurly { st3 with match_cond := false } with
            | fail e2 s' es1 => rw [hil] at h; simp at h
            | panicked m => rw [hil] at h; simp at h
            | oof => rw [hil] at h; simp at h
            | ok bl st4 es4 =>
              rw [hil] at h
              cases bl with
              | true =>
                simp only [eq_self_iff_true, if_true, bind_apply,
                  pure_apply] at h
                cases hpb : parser_body k st4 with
                | fail e2 s' es1 => rw [hpb] at h; simp at h
                | panicked m => rw [hpb] at h; simp at h
                | oof => rw [hpb] at h; simp at h
                | ok body st5 es5 =>
                  rw [hpb] at h
                  simp only [bind_apply, pure_apply] at h
                  cases hms : must_stmt_end st5 with
                  | fail e2 s' es1 => rw [hms] at h; simp at h
                  | panicked m => rw [hms] at h; simp at h
                  | oof => rw [hms] at h; simp at h
                  | ok u st6 es6 =>
                    rw [hms] at h
                    simp only [bind_apply, pure_apply] at h
                    cases hrec : matchArmsLoop k none st6 with
                    | fail e2 s' es1 => rw [hrec] at h; simp at h
                    | panicked m => rw [hrec] at h; simp at h
                    | oof => rw [hrec] at h; simp at h
                    | ok rest st7 es7 =>
                      rw [hrec] at h
                      simp only [Res.ok.injEq] at h
                      obtain ⟨hcs, -, -⟩ := h
                      subst hcs
                      intro mc hmc
                      rcases List.mem_cons.mp hmc with hhead | htail
                      · subst hhead
                        rfl
                      · exact ih st6 rest st7 es7 hrec mc htail
              | false =>
                simp only [Bool.false_eq_true, if_false, bind_apply,
                  pure_apply] at h
                cases hpx : parser_expr k st4 with
                | fail e2 s' es1 => rw [hpx] at h; simp at h
                | panicked m => rw [hpx] at h; simp at h
                | oof => rw [hpx] at h; simp at h
                | ok he2 st5 es5 =>
                  rw [hpx] at h
                  simp only [bind_apply, pure_apply] at h
                  cases hms : must_stmt_end st5 with
                  | fail e2 s' es1 => rw [hms] at h; simp at h
                  | panicked m => rw [hms] at h; simp at h
                  | oof => rw [hms] at h; simp at h
                  | ok u st6 es6 =>
                    rw [hms] at h
                    simp only [bind_apply, pure_apply] at h
                    cases hrec : matchArmsLoop k none st6 with
                    | fail e2 s' es1 => rw [hrec] at h; simp at h
                    | panicked m => rw [hrec] at h; simp at h
                    | oof => rw [hrec] at h; simp at h
                    | ok rest st7 es7 =>
                      rw [hrec] at h
                      simp only [Res.ok.injEq] at h
                      obtain ⟨hcs, -, -⟩ := h
                      subst hcs
                      intro mc hmc
                      rcases List.mem_cons.mp hmc with hhead | htail
                      · subst hhead
                        rfl
                      · exact ih st6 rest st7 es7 hrec mc htail

end NLS

namespace NLS

def c4wToks : List Token :=
  [⟨.Is, "is", 0, 2, 0⟩, ⟨.Ident, "T", 3, 4, 0⟩, ⟨.Eof, "", 4, 4, 0⟩]

/-- C4 amended: a bare `is T` is rejected with `is type must be specified
in the match expression` exactly when the `match_cond` flag is clear, and
accepted as a `MatchIs` node when the flag is set (the flag is set while
any match arm condition is parsed, with or without subject); arms of a
subject-less match have exactly one condition. -/
theorem match_is_guard_spec :
    (∀ (g : Nat) (st : PSt) (isTok pkTok : Token),
      st.match_cond = false →
      st.tokens[st.current]? = some isTok →
      isTok.token_type = .Is →
      st.tokens[st.current + 1]? = some pkTok →
      parser_match_is_expr (g+1) st =
        .fail ⟨pkTok.start, pkTok.end_,
            "is type must be specified in the match expression"⟩
          { st with current := st.current + 1 } []) ∧
    (∀ (g : Nat) (st : PSt) (isTok : Token) (t : Ty) (st2 : PSt)
      (es : List AnalyzerError),
      st.match_cond = true →
      st.tokens[st.current]? = some isTok →
      isTok.token_type = .Is →
      parser_single_type g { st with current := st.current + 1 } =
        .ok t st2 es →
      parser_match_is_expr (g+1) st =
        .ok (Expr.mk isTok.start isTok.end_ Ty.default Ty.default
          (.MatchIs t)) st2 es) ∧
    (∀ (fuel : Nat) (st : PSt) (cases : List MatchCase) (st' : PSt)
      (es : List AnalyzerError),
      matchArmsLoop fuel none st = .ok cases st' es →
      ∀ mc ∈ cases, mc.cond_list.length = 1) := by
  refine ⟨?_, ?_, match_arms_no_subject_single_cond⟩
  · intro g st isTok pkTok hmc h0 h1 h2
    simp [parser_match_is_expr, bind_apply, pure_apply, expr_new, must,
      peek, advance, getSt, throwSyn, Expr.setNode, hmc, h0, h1, h2]
  · intro g st isTok t st2 es hmc h0 h1 h2
    rw [hmc] at h2
    simp [parser_match_is_expr, bind_apply, pure_apply, expr_new, must,
      peek, advance, getSt, throwSyn, Expr.setNode, hmc, h0, h1, h2]

/-- C4, witness: a bare `is T` outside any match arm condition fails with
`is type must be specified in the match expression` at the type token's
span. -/
theorem match_is_guard_spec_witness :
    parser_match_is_expr 5 ⟨c4wToks, 0, [], false, false⟩ =
      .fail ⟨3, 4, "is type must be specified in the match expression"⟩
        ⟨c4wToks, 1, [], false, false⟩ [] := by
  have h := match_is_guard_spec.1 4 ⟨c4wToks, 0, [], false, false⟩
    ⟨.Is, "is", 0, 2, 0⟩ ⟨.Ident, "T", 3, 4, 0⟩ rfl (by rfl) rfl (by rfl)
  simpa using h

end NLS

namespace NLS

def angleToks : List Token :=
  [⟨.Ident, "a", 0, 1, 0⟩, ⟨.LeftAngle, "<", 2, 3, 0⟩, ⟨.Ident, "T", 4, 5, 0⟩,
   ⟨.RightAngle, ">", 6, 7, 0⟩, ⟨.Ident, "c", 8, 9, 0⟩, ⟨.Eof, "", 9, 9, 0⟩]

/-- C1, counterexample: in `a < T > c` the token after `>` is an
identifier, neither `(` nor `{`, yet `parser_left_angle_is_type_args`
answers `true` — the claimed follow-token requirement is not enforced on
the single-type path. -/
theorem left_angle_follow_token_not_checked :
    parser_left_angle_is_type_args 20 (Expr.identExpr 0 1 "a")
        ⟨angleToks, 1, [], false, false⟩ =
      .ok true ⟨angleToks, 1, [], false, false⟩ [] ∧
    angleToks[4]?.map Token.token_type = some .Ident ∧
    TokenType.Ident ≠ .LeftParen ∧ TokenType.Ident ≠ .LeftCurly := by
  exact ⟨rfl, rfl, by decide, by decide⟩

/-- C1, witness: the amended theorem instantiated on `a < T > c`: the
scan answers `true` and restores the cursor. -/
theorem left_angle_is_type_args_spec_witness :
    parser_left_angle_is_type_args 20 (Expr.identExpr 0 1 "a")
        ⟨angleToks, 1, [], false, false⟩ =
      .ok true ⟨angleToks, 1, [], false, false⟩ [] := by
  have h := left_angle_is_type_args_spec.2.1 18 ⟨angleToks, 1, [], false, false⟩
    (Expr.identExpr 0 1 "a") ⟨.LeftAngle, "<", 2, 3, 0⟩
    (Ty.mk (.Alias (TypeAlias.mk "T" none none)) 4 5 .Undo none (some "T") .Unknown)
    ⟨angleToks, 3, [], false, false⟩ [] ⟨.RightAngle, ">", 6, 7, 0⟩
    rfl rfl rfl rfl rfl
  simpa using h

def c5wToks : List Token :=
  [⟨.Ident, "a", 0, 1, 0⟩, ⟨.Minus, "-", 2, 3, 0⟩, ⟨.Ident, "b", 4, 5, 0⟩,
   ⟨.Eof, "", 5, 5, 0⟩]

/-- C5, witness: `expr_new` on the `+` token spans (0,1); `parser_binary`
on `a - b` yields a node spanning only the `-` token (2,3). -/
theorem node_span_single_token_spec_witness :
    expr_new ⟨plusEofTokens, 0, [], false, false⟩ =
      .ok (Expr.mk 0 1 Ty.default Ty.default .None)
        ⟨plusEofTokens, 0, [], false, false⟩ [] ∧
    parser_binary 19 (Expr.identExpr 0 1 "a") ⟨c5wToks, 1, [], false, false⟩ =
      .ok (Expr.mk 2 3 Ty.default Ty.default
          (.Binary .Sub (Expr.identExpr 0 1 "a") (Expr.identExpr 4 5 "b")))
        ⟨c5wToks, 3, [], false, false⟩ [] := by
  constructor
  · exact (node_span_single_token_spec.1 ⟨plusEofTokens, 0, [], false, false⟩
      ⟨.Plus, "+", 0, 1, 1⟩ rfl).1
  · have h := node_span_single_token_spec.2 18 ⟨c5wToks, 1, [], false, false⟩
      (Expr.identExpr 0 1 "a") (Expr.identExpr 4 5 "b") ⟨.Minus, "-", 2, 3, 0⟩
      .Factor ⟨c5wToks, 3, [], false, false⟩ [] rfl rfl rfl
    simpa using h

def c8toks : List Token :=
  [⟨.Go, "go", 0, 2, 0⟩, ⟨.Ident, "f", 3, 4, 0⟩, ⟨.LeftParen, "(", 4, 5, 0⟩,
   ⟨.RightParen, ")", 5, 6, 0⟩, ⟨.Eof, "", 6, 6, 0⟩]

def c8call : AstCall := AstCall.mk Ty.default (Expr.identExpr 3 4 "f") [] [] false

def c8expr : Expr := Expr.mk 4 5 Ty.default Ty.default (.Call c8call)

/-- C8, witness: `go f()` lowers to the `MacroCoAsync` node with the two
synthesised closures around the call `f()`. -/
theorem go_expr_lowering_spec_witness :
    parser_go_expr 19 ⟨c8toks, 0, [], false, false⟩ =
      .ok (exprAt 6 6 (.MacroCoAsync (MacroCoAsyncExpr.mk c8call
          (goClosure ⟨.Eof, "", 6, 6, 0⟩ c8expr)
          (goClosureVoid ⟨.Eof, "", 6, 6, 0⟩ c8call) none (Ty.new .Void))))
        ⟨c8toks, 4, [], false, false⟩ [] := by
  have h := (go_expr_lowering_spec 18 ⟨c8toks, 0, [], false, false⟩
    ⟨.Go, "go", 0, 2, 0⟩ c8expr ⟨c8toks, 4, [], false, false⟩ []
    rfl rfl rfl).1 c8call ⟨.Eof, "", 6, 6, 0⟩ rfl rfl
  simpa using h

def arrToks : List Token :=
  [⟨.Arr, "arr", 0, 3, 0⟩, ⟨.LeftAngle, "<", 3, 4, 0⟩, ⟨.Int, "int", 4, 7, 0⟩,
   ⟨.Comma, ",", 7, 8, 0⟩, ⟨.IntLiteral, "x", 9, 10, 0⟩,
   ⟨.RightAngle, ">", 10, 11, 0⟩, ⟨.Eof, "", 11, 11, 0⟩]

/-- C9, witness: `arr<int, x>` fails with
`array length must be a valid integer` at the literal's span. -/
theorem arr_type_length_spec_witness :
    parse_u64 "x" = none ∧
    parser_single_type 19 ⟨arrToks, 0, [], false, false⟩ =
      .fail ⟨9, 10, "array length must be a valid integer"⟩
        ⟨arrToks, 5, [], false, false⟩ [] := by
  refine ⟨rfl, ?_⟩
  have h := (arr_type_length_spec 18 ⟨arrToks, 0, [], false, false⟩
    ⟨.Arr, "arr", 0, 3, 0⟩ ⟨.LeftAngle, "<", 3, 4, 0⟩
    (Ty.mk .Int 4 7 .Undo (some "int") (some "int") .Int)
    ⟨arrToks, 3, [], false, false⟩ [] ⟨.Comma, ",", 7, 8, 0⟩
    ⟨.IntLiteral, "x", 9, 10, 0⟩
    rfl rfl rfl rfl rfl rfl rfl rfl rfl).1 rfl
  simpa using h

end NLS
